import Mathlib

/-!
Verification of the SolWatcher wallet dashboard's core library
(`src/lib/solana-api.ts`, the legacy `src/lib/api-client.ts` copy, and the
Helius proxy serverless handler) against its natural-language specification.

The TypeScript code is shallowly embedded: machine numbers that the code
divides (lamports, raw token amounts) are modelled as `Int`/`Rat` with exact
arithmetic, JS `Date.now()` timestamps as `Int` milliseconds, network calls as
explicit oracle parameters (`Except String _` for fallible calls), and JS
`Map`s as association lists.  JS truthiness of optional JSON fields is
modelled with `Option` (a note marks each spot where `0` or `""` is falsy).
-/

namespace SolWatcher

/-! ## Constants (src/lib/solana-api.ts lines 139-158) -/

def MAX_RETRIES : Nat := 3

def RETRY_DELAY : Nat := 1000

def TX_LIMIT : Nat := 20

/-- CACHE_TTL.SOL_PRICE = 30 * 1000 ms. -/
def CACHE_TTL_SOL_PRICE : Int := 30 * 1000

/-! ## TTL cache (src/lib/solana-api.ts lines 160-247)

A JS `Map<string, CacheEntry<T>>` is modelled as an association list with
the key occurring at most once; `Map.get` is `List.lookup`,
`Map.delete` removes the key's bindings. -/

structure CacheEntry (T : Type) where
  data : T
  timestamp : Int
deriving DecidableEq, Repr

/-- Model of `Map.delete(key)`. -/
def deleteKey {T : Type} (m : List (String × CacheEntry T)) (key : String) :
    List (String × CacheEntry T) :=
  m.filter (fun p => p.1 ≠ key)

/-- `getFromCache(cacheMap, key, ttl)`; `now` models `Date.now()`.
Returns the looked-up value (or `none`) together with the possibly
updated map. -/
def getFromCache {T : Type} (cacheMap : List (String × CacheEntry T))
    (key : String) (ttl : Int) (now : Int) :
    Option T × List (String × CacheEntry T) :=
  match cacheMap.lookup key with
  | none => (none, cacheMap)
  | some entry =>
    if now - entry.timestamp > ttl then
      (none, deleteKey cacheMap key)
    else
      (some entry.data, cacheMap)

/-- `getSolPriceFromCache()`: the dedicated nullable SOL-price slot. -/
def getSolPriceFromCache (slot : Option (CacheEntry Rat)) (now : Int) :
    Option Rat × Option (CacheEntry Rat) :=
  match slot with
  | none => (none, none)
  | some entry =>
    if now - entry.timestamp > CACHE_TTL_SOL_PRICE then
      (none, none)
    else
      (some entry.data, slot)

/-! ## Rate limiter (src/lib/solana-api.ts lines 167-198)

`RateLimiter.waitForSlot` for a single key.  The state is the recorded
timestamp list for that key; `now` is the JS `Date.now()` at call entry.
The function returns the new recorded list together with the time at which
the call resolves (after the `setTimeout` wait, if any).  Note the source
pushes `now` — the arrival time — into the list, not the post-wait time. -/
def waitForSlot (s : List Int) (now : Int) (maxRequests : Nat)
    (windowMs : Int) : List Int × Int :=
  let requests := s.filter (fun ts => ts > now - windowMs)
  let ret :=
    if maxRequests ≤ requests.length then
      match requests.head? with
      | some oldestRequest =>
        let waitTime := oldestRequest + windowMs - now
        if 0 < waitTime then now + waitTime else now
      | none =>
        -- JS: `requests[0]` is undefined, `undefined + windowMs - now` is
        -- NaN, and `NaN > 0` is false, so no wait happens.
        now
    else now
  (requests ++ [now], ret)

/-- One sequential call: the next call arrives `delta ≥ 0` ms after the
previous call resolved.  The pair is (recorded list, last resolve time). -/
def rlStep (maxRequests : Nat) (windowMs : Int) (p : List Int × Int)
    (delta : Nat) : List Int × Int :=
  waitForSlot p.1 (p.2 + delta) maxRequests windowMs

/-- A sequence of sequential `waitForSlot` calls on one key, starting from
an empty record at time `t0`; `deltas` gives each call's arrival delay
after the previous call resolved. -/
def rlRun (windowMs : Int) (maxRequests : Nat) (t0 : Int)
    (deltas : List Nat) : List Int × Int :=
  deltas.foldl (rlStep maxRequests windowMs) ([], t0)

/-- Number of recorded timestamps inside the window [w, w + windowMs). -/
def countInWindow (s : List Int) (w : Int) (windowMs : Int) : Nat :=
  (s.filter (fun t => decide (w ≤ t ∧ t < w + windowMs))).length

/-! ## Retry with exponential backoff (src/lib/solana-api.ts lines 294-329)

`callHeliusApi` with the HTTP layer as an oracle: `attempt n` is the outcome
of the n-th attempt (HTTP failure, non-ok status and JSON-RPC `error` all
surface as `Except.error`).  The call is invoked with `retries = MAX_RETRIES`.
Besides the final outcome we return the list of back-off delays slept, in
order, so the schedule can be specified. -/
def callHeliusApi {α : Type} (attempt : Nat → Except String α)
    (retries : Nat) : Except String α × List Nat :=
  match attempt (MAX_RETRIES - retries) with
  | .ok v => (.ok v, [])
  | .error e =>
    match retries with
    | 0 => (.error e, [])
    | r + 1 =>
      let rest := callHeliusApi attempt r
      (rest.1, (RETRY_DELAY * 2 ^ (MAX_RETRIES - (r + 1))) :: rest.2)

/-! ## Lamports → SOL (src/lib/solana-api.ts lines 370-378 and the legacy
copy embedded in src/lib/api-client.ts) -/

/-- Optimized `getSolBalance`: divides `res.value` by 10^9 and degrades any
error to 0. -/
def getSolBalance (res : Except String Rat) : Rat :=
  match res with
  | .ok v => v / 1000000000
  | .error _ => 0

/-- Legacy `getSolBalance` (api-client.ts): same conversion, errors
propagate. -/
def getSolBalanceLegacy (res : Except String Rat) : Except String Rat :=
  match res with
  | .ok v => .ok (v / 1000000000)
  | .error e => .error e

end SolWatcher

namespace SolWatcher

/-! ## Helius proxy handler (api/helius.ts, `src/unnamed/part_000`) -/

/-- POST body as destructured by the handler:
`const { method, params, id = 1, endpoint = 'rpc' } = body`.
`params` is an opaque JSON payload. -/
structure RpcBody where
  method : String
  params : String
  id : Int
  endpoint : String
deriving DecidableEq, Repr

/-- The JSON-RPC request the proxy sends upstream. -/
structure RpcOut where
  jsonrpc : String
  id : Int
  method : String
  params : String
deriving DecidableEq, Repr

/-- Upstream JSON reply: `error` is `some m` when the reply carries an
`error` field whose `message` is `m` (`m = ""` models a missing or empty
message, which is falsy in `data.error.message || 'Helius API error'`);
`payload` is the rest of the JSON body. -/
structure UpReply where
  error : Option String
  payload : String
deriving DecidableEq, Repr

/-- Handler reply: HTTP status plus either an error body or the forwarded
upstream JSON. -/
structure ProxyResponse where
  status : Nat
  errorMsg : Option String
  data : Option UpReply
deriving DecidableEq, Repr

/-- Incoming request.  `body` is the parsed POST body (used only when
`method = "POST"`), `query` the GET query parameters. -/
structure ProxyRequest where
  method : String
  body : RpcBody
  query : List (String × String)
deriving DecidableEq, Repr

/-- The Helius proxy handler.  `apiKey` is `process.env.HELIUS_API_KEY`;
`postUpstream endpoint rpcOut` is the upstream `fetch` for the POST branch
(non-ok HTTP status and thrown errors are `Except.error`); `getUpstream`
likewise for the GET branch (URL building is absorbed into the oracle). -/
def heliusHandler (apiKey : Option String)
    (postUpstream : String → RpcOut → Except String UpReply)
    (getUpstream : List (String × String) → Except String String)
    (req : ProxyRequest) : ProxyResponse :=
  match apiKey with
  | none => ⟨500, some "Helius API key not configured", none⟩
  | some _ =>
    if req.method = "POST" then
      let b := req.body
      let endpointUrl := if b.endpoint = "das" then "das" else "rpc"
      match postUpstream endpointUrl ⟨"2.0", b.id, b.method, b.params⟩ with
      | .error e => ⟨500, some e, none⟩
      | .ok data =>
        match data.error with
        | some m => ⟨400, some (if m = "" then "Helius API error" else m), none⟩
        | none => ⟨200, none, some data⟩
    else if req.method = "GET" then
      match getUpstream req.query with
      | .error e => ⟨500, some e, none⟩
      | .ok payload => ⟨200, none, some ⟨none, payload⟩⟩
    else ⟨405, some "Method not allowed", none⟩

/-! ## Transaction classification (src/lib/solana-api.ts lines 587-1293)

Data model for the parsed `getTransaction` JSON.  Raw token amounts and
lamport balances are integers in the JSON; dividing by `10^decimals` is
exact rational arithmetic here.  JS truthiness notes: a missing or empty
`info.mint` / raw `info.amount` string is `none`; `info.lamports = 0` is
falsy and is checked explicitly where the code tests `if (info.lamports)`. -/

/-- `instr.parsed.info` for transfer-like instructions. -/
structure TransferInfo where
  source : Option String := none
  lamports : Option Int := none
  amount : Option Int := none
  mint : Option String := none
  decimals : Option Nat := none
deriving DecidableEq, Repr

structure Instruction where
  parsedType : Option String := none
  info : TransferInfo := {}
deriving DecidableEq, Repr

/-- One entry of `meta.preTokenBalances` / `meta.postTokenBalances`;
`amount` is the raw `uiTokenAmount.amount` integer. -/
structure TokenBalance where
  mint : String
  owner : Option String := none
  amount : Int := 0
  decimals : Nat := 0
deriving DecidableEq, Repr

structure TxMeta where
  fee : Option Int := none
  err : Bool := false
  preTokenBalances : List TokenBalance := []
  postTokenBalances : List TokenBalance := []
  preBalances : List Int := []
  postBalances : List Int := []
deriving DecidableEq, Repr

/-- The fields of the `getTransaction` reply the classifier reads
(`transaction.message.instructions`, `transaction.message.accountKeys`,
`meta`, `blockTime`, `slot` are flattened into one record). -/
structure TxDetails where
  instructions : List Instruction := []
  accountKeys : List String := []
  meta : TxMeta := {}
  blockTime : Option Int := none
  slot : Option Nat := none
deriving DecidableEq, Repr

/-- The `Transaction` interface (solana-api.ts lines 23-41); the result
object at lines 1137-1154 sets every field, so none are optional except
`slot`. -/
structure Transaction where
  signature : String
  type : String
  token : String
  amount : Rat
  timestamp : Int
  status : String
  slot : Option Nat
  fee : Rat
  fromToken : String
  toToken : String
  fromAmount : Rat
  toAmount : Rat
  isSwap : Bool
  protocol : String
  description : String
  detailedType : String
deriving DecidableEq, Repr

/-- The mutable locals of `getTransactionDetails` (lines 687-698). -/
structure ClassState where
  type : String
  detailedType : String
  amount : Rat
  token : String
  description : String
  isSwap : Bool
  protocol : String
  fromToken : String
  toToken : String
  fromAmount : Rat
  toAmount : Rat
deriving DecidableEq, Repr

def initialClassState : ClassState :=
  { type := "unknown"
    detailedType := "Unknown"
    amount := 0
    token := "SOL"
    description := ""
    isSwap := false
    protocol := ""
    fromToken := ""
    toToken := ""
    fromAmount := 0
    toAmount := 0 }

/-- The DEFI_PROGRAMS table (lines 587-639), in JS object insertion order,
which `Object.entries` preserves for non-numeric string keys. -/
def DEFI_PROGRAMS : List (String × String) := [
  ("Jupiter", "JUP6LkbZbjS1jKKwapdHNy74zcZ3tLUZoi5QNyVTaV4"),
  ("Jupiter DCA", "DCA26V4t7vX5b5w3s6fZ5s5s5s5s5s5s5s5s5s5s5s"),
  ("Raydium", "675kPX9MHTjS2zt1qfr1NYHuzeLXfQM9H24wFSUt1Mp8"),
  ("Raydium Liquidity", "27haf8L6oxUeXrHrgEgsexjSY5hbVUWEmvv9Nyxg8vQv"),
  ("Raydium CLMM", "CAMMCzo5YL8w4VFF8KVHrK22GGUsp5VTaW7grrKgrWqK"),
  ("Raydium CPMM", "CPMMoo8L3F4NbTegBCKVNunggL7H1ZpdTHKxQB5qKP1C"),
  ("Raydium Stable Swap", "5quBtoiQqxF9Jv6KYKctB59NT3gtJD2Y65kdnB1Uev3h"),
  ("Raydium Staking", "EhhTKczWMGQt46ynNeRX1WfeagwwJd7ufHvCDjRxjo5Q"),
  ("Raydium Farm", "9KEPoZmtHUrBbhWN1v1KWLMkkvwY6WLtAVUCPRtRjP4z"),
  ("Orca", "9W959DqEETiGZocYWCQPaJ6sBmUzgfxXfqGeTEdp3aQP"),
  ("Orca V2", "9W959DqEETiGZocYWCQPaJ6sBmUzgfxXfqGeTEdp3aQP"),
  ("Orca Whirlpool", "whirLbMiicVdio4qvUfM5KAg6Ct8VwpYzGff3uctyCc"),
  ("Meteora", "LBUZKhRxPF3XUpBCjp4YzTKgLccjZhTSDM9YuVaPwxo"),
  ("Meteora DLMM", "LBUZKhRxPF3XUpBCjp4YzTKgLccjZhTSDM9YuVaPwxo"),
  ("Meteora DAMM v1", "Eo7WjKq67rjJQSZxS6z3YkapzY3eMj6Xy8X5EQVn5UaB"),
  ("Meteora DAMM v2", "cpamdpZCGKUy5JxQXB4dcpGPiikHawvSWAd6mEn1sGG"),
  ("Meteora DBC", "dbcij3LWUppWqq96dh6gJWwBifmcGfLSB5D4DuSMaqN"),
  ("Meteora Dynamic Fee Sharing", "dfsdo2UqvwfN8DuUVrMRNfQe11VaiNoKcMqLHVvDPzh"),
  ("Meteora Stake2Earn", "FEESngU3neckdwib9X3KWqdL7Mjmqk9XNp3uh5JbP4KP"),
  ("Kamino", "KLend2g3cP87fffoy8q1mQqGKjrxjC8boSyAYavgmjD"),
  ("Kamino Lending", "KLend2g3cPKVUE8nKM6gD5DkV1F2eQWZ5hCE7DcW3jz"),
  ("Kamino Liquidity", "KLiMg9zHL4V9cZJj2b75VZ5tEgFgquZVd2oqq6oy8K"),
  ("Solend", "So1endDq2YkqhipRh3WViPa8hdiSpxWy6z3Z6tMCpA"),
  ("Marginfi", "Marginfi97Zwi4z8cA5DVyMFGFqaX1zRUJhBqjDEKQtBw"),
  ("Drift", "dRiftyHA39MWEi3m9aunc5MzRF1J8BsW5BF2kyA4UMj"),
  ("Wormhole", "3u8hJUVTA4jH1wYAyUur7FFZVQ8H635K3tSHHF4ssjQ"),
  ("Tensor", "TSWAPaqzMSnyPbhkKUPbAVgJcRKXWg6F4b1sYg3yQz"),
  ("Magic Eden", "M2mx93ekt1fmXSVkTrUL9xVFHjMEaH3d488HYWT7yf25"),
  ("Marinade", "MarBmsSgKXdrN1egZf5sqe1TMai9K1rChYndxJ6mNpX"),
  ("Serum DEX", "9xQeWvG816bUx9EPjHmaT23yvVM2ZWbrrpZb9PusVFin"),
  ("Pyth Oracle", "FsJ3A3u2vn5cTVofAjvy6y5kwABJAqYWpe4975bi2epH"),
  ("Switchboard", "SBondMDrcV3K4kxZR1HNVT7osZxAHVHgYXL5Ze1oMUv"),
  ("Bonk Rewards", "DezXAZ8z7PnrnRJjz3wXBoRgixCa6xjnB7YaB1pPB263"),
  ("Jito Staking", "J1to3PQfXidUUhprQWgdKkQAMWPJAEqSJ7amkBDE9qhF"),
  ("Phoenix", "PhoeNiXZ8ByJGLkxNfZRnkUfjvmuYqLR89jjFHGqdXY"),
  ("OpenBook", "srmqPvymJeFKQ4zGQed1GFppgkRHL9eaELiyT45vC02")]

/-- COMMON_TOKENS (lines 275-281). -/
def COMMON_TOKENS : List (String × String) := [
  ("So11111111111111111111111111111111111111112", "SOL"),
  ("EPjFWdd5AufqSSqeM2qN1xzybapC8G4wEGGkZwyTDt1v", "USDC"),
  ("Es9vMFrzaCERmJfrF4H2FYD4KCoNkY11McCe8BenwNYB", "USDT"),
  ("7vfCXTUXx5WJV5JADk17DUJ4ksgau7utNKj4bdc3spfw", "JUP"),
  ("J1toso1uCk3RLmjorhTtrVwE9iJdF4CzzpGrBjWa6Djf", "JUP")]

def SOL_MINT : String := "So11111111111111111111111111111111111111112"

/-- `getTokenSymbolFast`: common-token lookup first, otherwise the DAS
symbol fetch modelled by the `fetchSymbol` oracle (its cache and its
`mint.slice(0,4)+"..."+mint.slice(-4)` fallback are absorbed into the
oracle, which always yields a string because `getTokenSymbol` catches). -/
def getTokenSymbolFast (fetchSymbol : String → String) (mint : String) :
    String :=
  match COMMON_TOKENS.lookup mint with
  | some s => s
  | none => fetchSymbol mint

/-- JS `String.prototype.includes`. -/
def strIncludes (s sub : String) : Bool :=
  decide (sub.toList <:+: s.toList)

/-- JS `Math.abs`. -/
def mathAbs (q : Rat) : Rat := if q < 0 then -q else q

/-- JS `Math.max` on two numbers. -/
def mathMax (a b : Rat) : Rat := if a < b then b else a

/-- `Math.pow(10, n)` for a natural exponent, as an exact rational. -/
def pow10 (n : Nat) : Rat := ((10 ^ n : Nat) : Rat)

/-- ECMAScript `Number.prototype.toFixed(digits)` on an exact rational:
sign of the argument, then the magnitude rounded half-up to `digits`
fractional digits. -/
def toFixed (digits : Nat) (q : Rat) : String :=
  let sign := if q < 0 then "-" else ""
  let n : Nat := (Rat.floor (mathAbs q * pow10 digits + 1 / 2)).toNat
  sign ++ Nat.repr (n / 10 ^ digits) ++ "." ++
    (Nat.repr (10 ^ digits + n % 10 ^ digits)).drop 1

/-- The arrow separator as it literally appears in the source file
(a mojibake sequence, U+00E2 U+2020 U+2019). -/
def jsArrow : String := "â†’"

/-- Protocol detection loop (lines 717-728): the first DEFI_PROGRAMS entry
whose program ID occurs among the transaction's account keys. -/
def detectProtocol (accountKeys : List String) : Option (String × String) :=
  DEFI_PROGRAMS.find? (fun pr => decide (pr.2 ∈ accountKeys))

structure TokenTransfer where
  symbol : String
  amount : Rat
  mint : String
deriving DecidableEq, Repr

/-- The token transfers the Jupiter branch collects (lines 743-759). -/
def jupiterTokenTransfers (fetchSymbol : String → String)
    (instructions : List Instruction) (walletAddress : Option String) :
    List TokenTransfer :=
  instructions.filterMap (fun instr =>
    if instr.parsedType = some "transfer" ∨
        instr.parsedType = some "transferChecked" then
      match instr.info.amount, instr.info.mint with
      | some rawAmount, some mint =>
        let isSender := instr.info.source = walletAddress
        let amount : Rat := (rawAmount : Rat) / pow10 (instr.info.decimals.getD 0)
        let tokenSymbol := getTokenSymbolFast fetchSymbol mint
        some ⟨tokenSymbol, if isSender then -amount else amount, mint⟩
      | _, _ => none
    else none)

structure BalanceChange where
  mint : String
  amount : Rat
  symbol : String
deriving DecidableEq, Repr

/-- Stable insertion keeping descending |amount| order (equal keys keep
their original relative order, like the JS stable `sort`). -/
def insertByAbsDesc (x : BalanceChange) : List BalanceChange → List BalanceChange
  | [] => [x]
  | y :: t => if mathAbs x.amount ≤ mathAbs y.amount then y :: insertByAbsDesc x t
              else x :: y :: t

/-- Stable sort by descending |amount| (`(a, b) => |b.amount| - |a.amount|`). -/
def sortByAbsDesc (l : List BalanceChange) : List BalanceChange :=
  l.foldl (fun acc c => insertByAbsDesc c acc) []

/-- `calculateEnhancedBalanceChanges` (lines 1176-1269): SOL change at
account index 0, then per-token balance diffs for the wallet owner, with
dust thresholds, sorted by descending |amount|. -/
def calculateEnhancedBalanceChanges (fetchSymbol : String → String)
    (preTokenBalances postTokenBalances : List TokenBalance)
    (preSolBalances postSolBalances : List Int)
    (walletAddress : Option String) : List BalanceChange :=
  let solChanges : List BalanceChange :=
    match preSolBalances.get? 0, postSolBalances.get? 0 with
    | some pre, some post =>
      let solDiff : Rat := (post : Rat) / 1000000000 - (pre : Rat) / 1000000000
      if 1 / 1000000000 < (mathAbs solDiff) then [⟨SOL_MINT, solDiff, "SOL"⟩] else []
    | _, _ => []
  let preChanges : List BalanceChange := preTokenBalances.filterMap (fun pre =>
    if pre.owner ≠ walletAddress then none
    else
      match postTokenBalances.find?
          (fun p => p.mint = pre.mint ∧ p.owner = walletAddress) with
      | some post =>
        let preAmount : Rat := (pre.amount : Rat) / pow10 pre.decimals
        let postAmount : Rat := (post.amount : Rat) / pow10 post.decimals
        let diff := postAmount - preAmount
        if 1 / 1000000 < (mathAbs diff) then
          some ⟨pre.mint, diff, getTokenSymbolFast fetchSymbol pre.mint⟩
        else none
      | none =>
        let preAmount : Rat := (pre.amount : Rat) / pow10 pre.decimals
        if 1 / 1000000 < preAmount then
          some ⟨pre.mint, -preAmount, getTokenSymbolFast fetchSymbol pre.mint⟩
        else none)
  let postChanges : List BalanceChange := postTokenBalances.filterMap (fun post =>
    if post.owner ≠ walletAddress then none
    else
      match preTokenBalances.find?
          (fun p => p.mint = post.mint ∧ p.owner = walletAddress) with
      | some _ => none
      | none =>
        let postAmount : Rat := (post.amount : Rat) / pow10 post.decimals
        if 1 / 1000000 < postAmount then
          some ⟨post.mint, postAmount, getTokenSymbolFast fetchSymbol post.mint⟩
        else none)
  sortByAbsDesc (solChanges ++ preChanges ++ postChanges)

/-! Protocol-specific handlers.  Each returns `some st` when it sets
`protocolHandled = true` in the source, `none` otherwise (an unhandled
block leaves every local untouched). -/

/-- Jupiter / Jupiter DCA (lines 741-783). -/
def jupiterRule (fetchSymbol : String → String) (detectedProtocol : String)
    (instructions : List Instruction) (walletAddress : Option String)
    (st : ClassState) : Option ClassState :=
  let tokenTransfers := jupiterTokenTransfers fetchSymbol instructions walletAddress
  if 2 ≤ tokenTransfers.length then
    let sent := tokenTransfers.filter (fun t => t.amount < 0)
    let received := tokenTransfers.filter (fun t => 0 < t.amount)
    match sent.head?, received.head? with
    | some sentToken, some receivedToken =>
      some { st with
        description := "SWAP: " ++ toFixed 6 (mathAbs sentToken.amount) ++ " " ++
          sentToken.symbol ++ " " ++ jsArrow ++ " " ++
          toFixed 6 receivedToken.amount ++ " " ++ receivedToken.symbol ++
          "; " ++ detectedProtocol
        isSwap := true
        type := "Swap"
        detailedType := "Token Swap"
        fromToken := sentToken.symbol
        toToken := receivedToken.symbol
        fromAmount := (mathAbs sentToken.amount)
        toAmount := receivedToken.amount
        amount := mathMax (mathAbs sentToken.amount) receivedToken.amount
        protocol := detectedProtocol
        token := sentToken.symbol }
    | _, _ => none
  else none

/-- The `protocolPrefix` relabelling chain inside the DEX swap case
(lines 825-835). -/
def dexSwapLabel (dp : String) : String :=
  if dp = "Raydium" then "Raydium AMM"
  else if dp = "Raydium CLMM" then "Raydium CLMM"
  else if dp = "Raydium CPMM" then "Raydium CPMM"
  else if dp = "Raydium Stable Swap" then "Raydium Stable"
  else if dp = "Orca" then "Orca V2"
  else if dp = "Orca Whirlpool" then "Orca Whirlpool"
  else if dp = "Meteora" then "Meteora DLMM"
  else if dp = "Meteora DAMM v1" then "Meteora DAMM v1"
  else if dp = "Meteora DAMM v2" then "Meteora DAMM v2"
  else if dp = "Serum DEX" then "Serum DEX"
  else dp

/-- `protocol = dp.includes("Raydium") ? "Raydium" : dp.includes("Orca") ?
"Orca" : "Meteora"` (liquidity cases). -/
def dexProtocolShort (dp : String) : String :=
  if strIncludes dp "Raydium" then "Raydium"
  else if strIncludes dp "Orca" then "Orca"
  else "Meteora"

/-- DEX protocols: Raydium / Orca / Meteora / Serum DEX (lines 786-874). -/
def dexRule (detectedProtocol : String) (changes : List BalanceChange)
    (st : ClassState) : Option ClassState :=
  if changes = [] then none
  else
    let received := changes.filter (fun c => 0 < c.amount)
    let sent := changes.filter (fun c => c.amount < 0)
    match received.head?, sent.head? with
    | some receivedToken, some sentToken =>
      if strIncludes detectedProtocol "Liquidity" ||
          strIncludes detectedProtocol "CLMM" ||
          strIncludes detectedProtocol "DLMM" ||
          strIncludes detectedProtocol "Whirlpool" ||
          strIncludes detectedProtocol "DAMM" ||
          (strIncludes sentToken.symbol "LP" ||
           strIncludes receivedToken.symbol "LP") then
        some { st with
          description := "Liquidity: " ++ toFixed 6 (mathAbs sentToken.amount) ++ " " ++
            sentToken.symbol ++ " " ++ jsArrow ++ " " ++
            toFixed 6 receivedToken.amount ++ " " ++ receivedToken.symbol ++
            "; " ++ detectedProtocol
          type := "Liquidity"
          detailedType := "Liquidity Provision"
          protocol := dexProtocolShort detectedProtocol
          token := sentToken.symbol
          amount := (mathAbs sentToken.amount) }
      else
        some { st with
          description := "SWAP: " ++ toFixed 6 (mathAbs sentToken.amount) ++ " " ++
            sentToken.symbol ++ " " ++ jsArrow ++ " " ++
            toFixed 6 receivedToken.amount ++ " " ++ receivedToken.symbol ++
            "; " ++ dexSwapLabel detectedProtocol
          isSwap := true
          type := "Swap"
          detailedType := "Token Swap"
          fromToken := sentToken.symbol
          toToken := receivedToken.symbol
          fromAmount := (mathAbs sentToken.amount)
          toAmount := receivedToken.amount
          amount := mathMax (mathAbs sentToken.amount) receivedToken.amount
          protocol :=
            (if strIncludes detectedProtocol "Raydium" then "Raydium"
             else if strIncludes detectedProtocol "Orca" then "Orca"
             else if strIncludes detectedProtocol "Meteora" then "Meteora"
             else "Serum")
          token := sentToken.symbol }
    | some receivedToken, none =>
      some { st with
        description := "Liquidity Withdrawal: " ++
          toFixed 6 receivedToken.amount ++ " " ++ receivedToken.symbol ++
          "; " ++ detectedProtocol
        type := "Unstake"
        detailedType := "Liquidity Withdrawal"
        protocol := dexProtocolShort detectedProtocol }
    | none, some sentToken =>
      some { st with
        description := "Liquidity Provision: " ++ toFixed 6 (mathAbs sentToken.amount) ++
          " " ++ sentToken.symbol ++ "; " ++ detectedProtocol
        type := "Stake"
        detailedType := "Liquidity Provision"
        protocol := dexProtocolShort detectedProtocol
        token := sentToken.symbol
        amount := (mathAbs sentToken.amount) }
    | none, none => none

/-- Lending protocols: Kamino / Solend / Marginfi (lines 877-926). -/
def lendingRule (detectedProtocol : String) (changes : List BalanceChange)
    (st : ClassState) : Option ClassState :=
  if changes = [] then none
  else
    let received := changes.filter (fun c => 0 < c.amount)
    let sent := changes.filter (fun c => c.amount < 0)
    let lendProtocol :=
      if strIncludes detectedProtocol "Kamino" then "Kamino"
      else if strIncludes detectedProtocol "Solend" then "Solend"
      else "Marginfi"
    match received.head? with
    | some receivedToken =>
      if strIncludes detectedProtocol "Lending" then
        some { st with
          description := detectedProtocol ++ " Borrow: " ++
            toFixed 6 receivedToken.amount ++ " " ++ receivedToken.symbol
          type := "Borrow"
          detailedType := "Loan Borrow"
          protocol := lendProtocol }
      else
        some { st with
          description := detectedProtocol ++ " Deposit Return: " ++
            toFixed 6 receivedToken.amount ++ " " ++ receivedToken.symbol
          type := "Receive"
          detailedType := "Deposit Return"
          protocol := lendProtocol }
    | none =>
      match sent.head? with
      | some sentToken =>
        if strIncludes detectedProtocol "Lending" then
          some { st with
            description := detectedProtocol ++ " Repay: " ++
              toFixed 6 (mathAbs sentToken.amount) ++ " " ++ sentToken.symbol
            type := "Repay"
            detailedType := "Loan Repayment"
            protocol := lendProtocol
            token := sentToken.symbol
            amount := (mathAbs sentToken.amount) }
        else
          some { st with
            description := detectedProtocol ++ " Deposit: " ++
              toFixed 6 (mathAbs sentToken.amount) ++ " " ++ sentToken.symbol
            type := "Send"
            detailedType := "Lending Deposit"
            protocol := lendProtocol
            token := sentToken.symbol
            amount := (mathAbs sentToken.amount) }
      | none => none

/-- Wormhole bridge (lines 938-969). -/
def wormholeRule (changes : List BalanceChange) (st : ClassState) :
    Option ClassState :=
  if changes = [] then none
  else
    let received := changes.filter (fun c => 0 < c.amount)
    let sent := changes.filter (fun c => c.amount < 0)
    match received.head? with
    | some receivedToken =>
      some { st with
        description := "Bridge Receive: " ++ toFixed 6 receivedToken.amount ++
          " " ++ receivedToken.symbol ++ "; Wormhole"
        type := "Receive"
        detailedType := "Bridge Receive"
        protocol := "Wormhole" }
    | none =>
      match sent.head? with
      | some sentToken =>
        some { st with
          description := "Bridge Send: " ++ toFixed 6 (mathAbs sentToken.amount) ++
            " " ++ sentToken.symbol ++ "; Wormhole"
          type := "Send"
          detailedType := "Bridge Send"
          protocol := "Wormhole"
          token := sentToken.symbol
          amount := (mathAbs sentToken.amount) }
      | none => none

/-- Staking protocols: Marinade / Bonk Rewards / Jito & friends
(lines 984-1022). -/
def stakingRule (detectedProtocol : String) (changes : List BalanceChange)
    (st : ClassState) : Option ClassState :=
  if changes = [] then none
  else
    let received := changes.filter (fun c => 0 < c.amount)
    let sent := changes.filter (fun c => c.amount < 0)
    let stakeProtocol :=
      if strIncludes detectedProtocol "Marinade" then "Marinade"
      else if strIncludes detectedProtocol "Bonk" then "Bonk Rewards"
      else "Jito"
    match received.head? with
    | some receivedToken =>
      some { st with
        description := "Unstaking: " ++ toFixed 6 receivedToken.amount ++
          " " ++ receivedToken.symbol ++ "; " ++ detectedProtocol
        type := "Unstake"
        detailedType := "Staking Withdrawal"
        protocol := stakeProtocol }
    | none =>
      match sent.head? with
      | some sentToken =>
        some { st with
          description := "Staking: " ++ toFixed 6 (mathAbs sentToken.amount) ++
            " " ++ sentToken.symbol ++ "; " ++ detectedProtocol
          type := "Stake"
          detailedType := "Staking Deposit"
          protocol := stakeProtocol
          token := sentToken.symbol
          amount := (mathAbs sentToken.amount) }
      | none => none

/-- The `if (detectedProtocol)` branch of the classifier (lines 735-1055):
the protocol-specific blocks in source order, then the generic fallback.
Every block reads the same pure `calculateEnhancedBalanceChanges` value. -/
def applyProtocolRules (fetchSymbol : String → String)
    (detectedProtocol : String) (instructions : List Instruction)
    (preTokenBalances postTokenBalances : List TokenBalance)
    (preSolBalances postSolBalances : List Int)
    (walletAddress : Option String) (st : ClassState) : ClassState :=
  let changes := calculateEnhancedBalanceChanges fetchSymbol
    preTokenBalances postTokenBalances preSolBalances postSolBalances
    walletAddress
  match (if detectedProtocol = "Jupiter" ∨ detectedProtocol = "Jupiter DCA" then
      jupiterRule fetchSymbol detectedProtocol instructions walletAddress st
    else none) with
  | some s => s
  | none =>
  match (if strIncludes detectedProtocol "Raydium" ||
        strIncludes detectedProtocol "Orca" ||
        strIncludes detectedProtocol "Meteora" ||
        decide (detectedProtocol = "Serum DEX") then
      dexRule detectedProtocol changes st
    else none) with
  | some s => s
  | none =>
  match (if strIncludes detectedProtocol "Kamino" ||
        strIncludes detectedProtocol "Solend" ||
        strIncludes detectedProtocol "Marginfi" then
      lendingRule detectedProtocol changes st
    else none) with
  | some s => s
  | none =>
  if detectedProtocol = "Drift" then
    { st with
      description := "Drift Trading: Position Update"
      type := "Trade"
      detailedType := "Perpetual Trading"
      protocol := "Drift" }
  else
  match (if detectedProtocol = "Wormhole" then wormholeRule changes st
    else none) with
  | some s => s
  | none =>
  if detectedProtocol = "Tensor" ∨ detectedProtocol = "Magic Eden" then
    { st with
      description := "NFT " ++ detectedProtocol ++ ": Transaction"
      type := "NFT"
      detailedType := "NFT Transaction"
      protocol := detectedProtocol }
  else
  match (if strIncludes detectedProtocol "Staking" ||
        strIncludes detectedProtocol "Marinade" ||
        strIncludes detectedProtocol "Bonk Rewards" ||
        strIncludes detectedProtocol "Jito" then
      stakingRule detectedProtocol changes st
    else none) with
  | some s => s
  | none =>
  if detectedProtocol = "Pyth Oracle" ∨ detectedProtocol = "Switchboard" then
    { st with
      description := detectedProtocol ++ ": Price Update"
      type := "Oracle"
      detailedType := "Price Update"
      protocol := if strIncludes detectedProtocol "Pyth" then "Pyth"
                  else "Switchboard" }
  else
  if detectedProtocol = "Phoenix" ∨ detectedProtocol = "OpenBook" then
    { st with
      description := detectedProtocol ++ ": Trading"
      type := "Trade"
      detailedType := "DEX Trading"
      protocol := detectedProtocol }
  else
    { st with
      description := detectedProtocol ++ ": Interaction"
      type := "Unknown"
      detailedType := "Protocol Interaction"
      protocol := detectedProtocol }

/-- The transfer fallback loop (lines 1058-1101): first `transfer`
instruction carrying either nonzero `lamports` (SOL transfer; `0` is
falsy) or `amount` and `mint` (SPL transfer); later instructions are
ignored after the `break`. -/
def transferFallback (fetchSymbol : String → String) :
    List Instruction → Option String → ClassState → ClassState
  | [], _, st => st
  | instr :: rest, walletAddress, st =>
    if instr.parsedType = some "transfer" then
      let lamTruthy := match instr.info.lamports with
        | some l => l != 0
        | none => false
      if lamTruthy then
        let l := instr.info.lamports.getD 0
        let isSender := instr.info.source = walletAddress
        let amount : Rat := (l : Rat) / 1000000000
        { st with
          type := if isSender then "Send" else "Receive"
          detailedType := "SOL Transfer"
          amount := amount
          token := "SOL"
          protocol := "Solana"
          fromToken := "SOL"
          toToken := "SOL"
          fromAmount := if isSender then amount else 0
          toAmount := if isSender then 0 else amount
          description := (if isSender then "Send " else "Receive ") ++
            toFixed 9 amount ++ " SOL" }
      else
        match instr.info.amount, instr.info.mint with
        | some rawAmount, some mint =>
          let isSender := instr.info.source = walletAddress
          let amount : Rat := (rawAmount : Rat) / pow10 (instr.info.decimals.getD 0)
          let tokenSymbol := getTokenSymbolFast fetchSymbol mint
          { st with
            type := if isSender then "Send" else "Receive"
            detailedType := "Token Transfer"
            amount := amount
            token := tokenSymbol
            protocol := "Token Transfer"
            fromToken := tokenSymbol
            toToken := tokenSymbol
            fromAmount := if isSender then amount else 0
            toAmount := if isSender then 0 else amount
            description := (if isSender then "Send " else "Receive ") ++
              toFixed 6 amount ++ " " ++ tokenSymbol }
        | _, _ => transferFallback fetchSymbol rest walletAddress st
    else transferFallback fetchSymbol rest walletAddress st

/-- The SOL balance-change fallback (lines 1104-1127).  The wallet is
`accountKeys[0]`; a missing balance entry gives NaN in JS, and
`NaN > dust` is false, so the state is left unchanged then. -/
def solDiffFallback (accountKeys : List String) (preSol postSol : List Int)
    (walletAddress : Option String) (st : ClassState) : ClassState :=
  let walletIndex : Option Nat :=
    match walletAddress with
    | some w => accountKeys.findIdx? (fun k => k = w)
    | none => none
  match walletIndex with
  | none => st
  | some idx =>
    match preSol.get? idx, postSol.get? idx with
    | some pre, some post =>
      let preSolQ : Rat := (pre : Rat) / 1000000000
      let postSolQ : Rat := (post : Rat) / 1000000000
      let solDiff := postSolQ - preSolQ
      if 1 / 1000000000 < (mathAbs solDiff) then
        let isReceive := 0 < solDiff
        { st with
          type := if isReceive then "Receive" else "Send"
          detailedType := "SOL Balance Change"
          amount := (mathAbs solDiff)
          token := "SOL"
          protocol := "Solana"
          fromToken := "SOL"
          toToken := "SOL"
          fromAmount := if isReceive then 0 else (mathAbs solDiff)
          toAmount := if isReceive then (mathAbs solDiff) else 0
          description := (if isReceive then "Receive " else "Send ") ++
            toFixed 9 (mathAbs solDiff) ++ " SOL" }
      else st
    | _, _ => st

/-- The signed SOL balance change the fallback computes for the wallet
(0 when the code's guards make it skip the check). -/
def walletSolDiff (d : TxDetails) : Rat :=
  if d.meta.preBalances ≠ [] ∧ d.meta.postBalances ≠ [] then
    match (match d.accountKeys.head? with
           | some w => d.accountKeys.findIdx? (fun k => k = w)
           | none => none) with
    | some idx =>
      match d.meta.preBalances.get? idx, d.meta.postBalances.get? idx with
      | some pre, some post =>
        (post : Rat) / 1000000000 - (pre : Rat) / 1000000000
      | _, _ => 0
    | none => 0
  else 0

/-- The pipeline after protocol handling (lines 1057-1135): transfer
fallback, SOL balance-change fallback, final Unknown fallback. -/
def finishClassify (fetchSymbol : String → String) (d : TxDetails)
    (st1 : ClassState) : ClassState :=
  let walletAddress := d.accountKeys.head?
  let st2 := if st1.type = "unknown" then
      transferFallback fetchSymbol d.instructions walletAddress st1
    else st1
  let st3 := if st2.type = "unknown" ∧ d.meta.preBalances ≠ [] ∧
      d.meta.postBalances ≠ [] then
      solDiffFallback d.accountKeys d.meta.preBalances d.meta.postBalances
        walletAddress st2
    else st2
  if st3.type = "unknown" then
    { st3 with
      type := "Unknown"
      detailedType := "Unknown Transaction"
      description := "Unknown transaction type"
      protocol := "Unknown" }
  else st3

/-- The whole classification of one transaction's parsed details. -/
def classify (fetchSymbol : String → String) (d : TxDetails) : ClassState :=
  match detectProtocol d.accountKeys with
  | some (programName, _) =>
    finishClassify fetchSymbol d
      (applyProtocolRules fetchSymbol programName d.instructions
        d.meta.preTokenBalances d.meta.postTokenBalances
        d.meta.preBalances d.meta.postBalances d.accountKeys.head?
        { initialClassState with
          protocol := programName })
  | none => finishClassify fetchSymbol d initialClassState

/-- `getTransactionDetails` (lines 678-1173).  `details` is the
`getTransaction` RPC reply (`none` models both a null reply and the
catch-all error path); `nowSec` models `Math.floor(Date.now() / 1000)`. -/
def getTransactionDetails (fetchSymbol : String → String) (nowSec : Int)
    (details : Option TxDetails) (signature : String) : Option Transaction :=
  match details with
  | none => none
  | some d =>
    let st := classify fetchSymbol d
    let fee : Rat := match d.meta.fee with
      | some f => if f ≠ 0 then (f : Rat) / 1000000000 else 0
      | none => 0
    some {
      signature := signature
      type := st.type
      token := st.token
      amount := st.amount
      timestamp := match d.blockTime with
        | some t => if t ≠ 0 then t else nowSec
        | none => nowSec
      status := if d.meta.err then "failed" else "success"
      slot := d.slot
      fee := fee
      isSwap := st.isSwap
      protocol := st.protocol
      fromToken := st.fromToken
      toToken := st.toToken
      fromAmount := st.fromAmount
      toAmount := st.toAmount
      detailedType := st.detailedType
      description := if st.description = "" then st.type else st.description }

/-! ## Paginated transaction fetching (src/lib/solana-api.ts lines 1296-1400) -/

/-- Result of `getRecentTransactions`. -/
structure TxPage where
  transactions : List Transaction
  hasMore : Bool
  lastSignature : Option String
deriving Repr

/-- `getRecentTransactions(address, limit, before)`.  `sigResp` is the
`getSignaturesForAddress` reply (the catch wraps everything, so an error
yields the empty page); `txOf sig` is the settled outcome of
`getTransactionDetails(sig)` — `none` for a null result or a rejection,
which the `allSettled` loop skips.  Batching and delays do not affect the
returned value. -/
def getRecentTransactions (sigResp : Except String (List String))
    (txOf : String → Option Transaction) (limit : Nat) : TxPage :=
  match sigResp with
  | .error _ => ⟨[], false, none⟩
  | .ok signatures =>
    if signatures.isEmpty then ⟨[], false, none⟩
    else
      { transactions := signatures.filterMap txOf
        hasMore := signatures.length == limit
        lastSignature := signatures.getLast? }

/-- The `getAllTransactions` while-loop.  `pages i limit` is the signature
reply to the i-th page request (the `before` cursor is determined by the
run, so pages are indexed by request number); `requestedLimits` records, as
specification-only instrumentation, the `limit` passed to each
`getRecentTransactions` call. -/
structure FetchAllResult where
  transactions : List Transaction
  totalFetched : Nat
  requestedLimits : List Nat
deriving Repr

def getAllTransactionsGo (pages : Nat → Nat → Except String (List String))
    (txOf : String → Option Transaction) (maxTransactions : Nat)
    (i : Nat) (acc : List Transaction) (totalFetched : Nat)
    (hasMore : Bool) : FetchAllResult :=
  if h : hasMore = true ∧ totalFetched < maxTransactions then
    let limit := min TX_LIMIT (maxTransactions - totalFetched)
    let page := getRecentTransactions (pages i limit) txOf limit
    if h2 : page.transactions.isEmpty then ⟨acc, totalFetched, [limit]⟩
    else
      let r := getAllTransactionsGo pages txOf maxTransactions (i + 1)
        (acc ++ page.transactions) (totalFetched + page.transactions.length)
        (page.hasMore && page.lastSignature.isSome)
      ⟨r.transactions, r.totalFetched, limit :: r.requestedLimits⟩
  else ⟨acc, totalFetched, []⟩
termination_by maxTransactions - totalFetched
decreasing_by
  have h2a : (getRecentTransactions
      (pages i (min TX_LIMIT (maxTransactions - totalFetched))) txOf
      (min TX_LIMIT (maxTransactions - totalFetched))).transactions ≠ [] := by
    simpa [List.isEmpty_iff] using h2
  have hlen : 0 < (getRecentTransactions
      (pages i (min TX_LIMIT (maxTransactions - totalFetched))) txOf
      (min TX_LIMIT (maxTransactions - totalFetched))).transactions.length :=
    List.length_pos.mpr h2a
  have hlt : totalFetched < maxTransactions := h.2
  omega

/-- `getAllTransactions(address, maxTransactions)` (default 100). -/
def getAllTransactions (pages : Nat → Nat → Except String (List String))
    (txOf : String → Option Transaction) (maxTransactions : Nat) :
    FetchAllResult :=
  getAllTransactionsGo pages txOf maxTransactions 0 [] 0 true

/-! ## fetchWalletData (src/lib/solana-api.ts lines 1403-1444) -/

/-- `tokenAmount` of a TokenAccount. -/
structure TokenAmount where
  amount : String
  decimals : Nat
  uiAmount : Rat
  uiAmountString : String
deriving Repr

structure TokenInfo where
  symbol : String
  name : String
  logoURI : Option String := none
  usdValue : Option Rat := none
  pricePerToken : Option Rat := none
deriving Repr

structure TokenAccount where
  mint : String
  tokenAmount : TokenAmount
  tokenInfo : TokenInfo
deriving Repr

structure WalletData where
  address : String
  balance : Rat
  usdValue : Rat
  tokens : List TokenAccount
  transactions : List Transaction
deriving Repr

/-- One character of the base58 class `[1-9A-HJ-NP-Za-km-z]`. -/
def base58Char (c : Char) : Bool :=
  decide (('1' ≤ c ∧ c ≤ '9') ∨ ('A' ≤ c ∧ c ≤ 'H') ∨ ('J' ≤ c ∧ c ≤ 'N') ∨
    ('P' ≤ c ∧ c ≤ 'Z') ∨ ('a' ≤ c ∧ c ≤ 'k') ∨ ('m' ≤ c ∧ c ≤ 'z'))

/-- The test `/^[1-9A-HJ-NP-Za-km-z]{32,44}$/.test(address)`. -/
def validSolanaAddress (s : String) : Bool :=
  decide (32 ≤ s.length ∧ s.length ≤ 44) && s.toList.all base58Char

/-- `r.status === 'fulfilled' ? r.value : dflt` for a settled promise. -/
def fulfilledOr {α : Type} (r : Except String α) (dflt : α) : α :=
  match r with
  | .ok v => v
  | .error _ => dflt

/-- `transactionsResult.status === 'fulfilled' ?
transactionsResult.value.transactions : []`. -/
def settledTransactions (r : Except String TxPage) : List Transaction :=
  match r with
  | .ok page => page.transactions
  | .error _ => []

/-- `usdValue` stays at its initial 0 unless both the balance and the SOL
price settled fulfilled (lines 1424-1430). -/
def settledUsdValue (balanceRes priceRes : Except String Rat) : Rat :=
  match balanceRes, priceRes with
  | .ok b, .ok p => b * p
  | _, _ => 0

/-- `fetchWalletData(address)`: regex gate first (before any network call),
then `Promise.allSettled` of the four sub-fetches, each degraded to a
default when rejected. -/
def fetchWalletData (address : String) (balanceRes : Except String Rat)
    (tokensRes : Except String (List TokenAccount))
    (txRes : Except String TxPage) (priceRes : Except String Rat) :
    Except String WalletData :=
  if !(validSolanaAddress address) then .error "Invalid Solana address"
  else
    .ok {
      address := address
      balance := fulfilledOr balanceRes 0
      tokens := fulfilledOr tokensRes []
      transactions := settledTransactions txRes
      usdValue := settledUsdValue balanceRes priceRes }

end SolWatcher


namespace SolWatcher

/-! ## Theorems -/

/-- Helper: `List.find?` returns the first element satisfying the
predicate, in list order. -/
theorem find_first {α : Type} (p : α → Bool) :
    ∀ (l : List α), (∃ x ∈ l, p x) →
      ∃ i : Fin l.length, l.find? p = some (l.get i) ∧ p (l.get i) ∧
        ∀ j : Fin l.length, (j : Nat) < (i : Nat) → ¬ p (l.get j) := by
  intro l
  induction l with
  | nil =>
    rintro ⟨x, hx, -⟩
    exact absurd hx (List.not_mem_nil x)
  | cons a t ih =>
    rintro ⟨x, hx, hpx⟩
    by_cases hpa : p a
    · refine ⟨⟨0, by simp⟩, ?_, ?_, ?_⟩
      · simpa using List.find?_cons_of_pos t hpa
      · simpa using hpa
      · intro j hj
        exact absurd hj (Nat.not_lt_zero _)
    · have hxt : x ∈ t := by
        rcases List.mem_cons.mp hx with h1 | h1
        · subst h1; exact absurd hpx (by simpa using hpa)
        · exact h1
      obtain ⟨i, hfind, hp, hmin⟩ := ih ⟨x, hxt, hpx⟩
      refine ⟨i.succ, ?_, ?_, ?_⟩
      · rw [List.find?_cons_of_neg t hpa, hfind]
        rfl
      · simpa using hp
      · intro j hj
        rcases j with ⟨jv, hjlt⟩
        cases jv with
        | zero => simpa using hpa
        | succ jv =>
          simpa using hmin ⟨jv, by simpa using hjlt⟩ (by simpa using hj)

/-- Helper: two nonempty filters with incompatible predicates force at
least two elements. -/
theorem two_le_of_disjoint_filters {α : Type} (p q : α → Bool)
    (hdisj : ∀ x, ¬(p x = true ∧ q x = true)) :
    ∀ (l : List α), l.filter p ≠ [] → l.filter q ≠ [] → 2 ≤ l.length := by
  have hsum : ∀ (l : List α),
      (l.filter p).length + (l.filter q).length ≤ l.length := by
    intro l
    induction l with
    | nil => simp
    | cons a t ih =>
      by_cases hpa : p a
      · have hqa : ¬ q a = true := fun hq => hdisj a ⟨hpa, hq⟩
        simp [List.filter_cons, hpa, hqa]
        omega
      · by_cases hqa : q a
        · simp [List.filter_cons, hpa, hqa]
          omega
        · simp [List.filter_cons, hpa, hqa]
          omega
  intro l hp hq
  have h1 : 1 ≤ (l.filter p).length := List.length_pos.mpr hp
  have h2 : 1 ≤ (l.filter q).length := List.length_pos.mpr hq
  have := hsum l
  omega

/-- Helper: the middle part of a three-part concatenation is an infix. -/
theorem str_infix_mid (pre mid post : String) :
    mid.toList <:+: (pre ++ mid ++ post).toList :=
  ⟨pre.toList, post.toList, by simp [String.toList, String.data_append]⟩

/-- Helper: a string ending in a nonempty literal is nonempty. -/
theorem str_append_ne_empty_right (s t : String) (ht : t.length ≠ 0) :
    s ++ t ≠ "" := by
  intro h
  have hlen := congrArg String.length h
  rw [String.length_append] at hlen
  have : String.length "" = 0 := rfl
  omega


/-- Helper: the back-off delays slept by `callHeliusApi attempt r` follow
the schedule RETRY_DELAY * 2^(MAX_RETRIES - r), ..., doubling each time,
and at most `r` retries happen. -/
theorem callHeliusApi_delays {α : Type} (attempt : Nat → Except String α) :
    ∀ r, r ≤ MAX_RETRIES →
      (callHeliusApi attempt r).2 =
        (List.range (callHeliusApi attempt r).2.length).map
          (fun j => RETRY_DELAY * 2 ^ (MAX_RETRIES - r + j)) ∧
      (callHeliusApi attempt r).2.length ≤ r := by
  have hM : MAX_RETRIES = 3 := rfl
  intro r
  induction r with
  | zero =>
    intro _
    rcases h : attempt MAX_RETRIES with e | v <;>
      simp [callHeliusApi, h]
  | succ r ih =>
    intro hr
    obtain ⟨ih1, ih2⟩ := ih (by omega)
    rcases h : attempt (MAX_RETRIES - (r + 1)) with e | v
    · rw [callHeliusApi.eq_def]
      simp only [h, List.length_cons]
      refine ⟨?_, by omega⟩
      have htail : (callHeliusApi attempt r).2 =
          List.map ((fun j => RETRY_DELAY * 2 ^ (MAX_RETRIES - (r + 1) + j)) ∘
            Nat.succ) (List.range (callHeliusApi attempt r).2.length) := by
        conv_lhs => rw [ih1]
        refine List.map_congr_left (fun j hj => ?_)
        simp only [Function.comp_apply]
        have hexp : MAX_RETRIES - r + j = MAX_RETRIES - (r + 1) + j.succ := by
          omega
        rw [hexp]
      rw [List.range_succ_eq_map, List.map_cons, List.map_map, ← htail]
      simp
    · rw [callHeliusApi.eq_def]
      simp [h]

/-- Helper: the first successful attempt's value is returned unchanged. -/
theorem callHeliusApi_first_success {α : Type}
    (attempt : Nat → Except String α) :
    ∀ r, r ≤ MAX_RETRIES → ∀ j v, MAX_RETRIES - r ≤ j → j ≤ MAX_RETRIES →
      attempt j = .ok v →
      (∀ i, MAX_RETRIES - r ≤ i → i < j → ∃ e, attempt i = .error e) →
      (callHeliusApi attempt r).1 = .ok v := by
  have hM : MAX_RETRIES = 3 := rfl
  intro r
  induction r with
  | zero =>
    intro _ j v hlo hhi hok _
    have hj : j = MAX_RETRIES := by omega
    subst hj
    simp [callHeliusApi, hok]
  | succ r ih =>
    intro hr j v hlo hhi hok hprev
    rcases h : attempt (MAX_RETRIES - (r + 1)) with e | w
    · have hne : MAX_RETRIES - (r + 1) ≠ j := by
        intro hEq
        rw [hEq, hok] at h
        exact Except.noConfusion h
      have hlt : MAX_RETRIES - (r + 1) < j := by omega
      rw [callHeliusApi.eq_def]
      simp only [h]
      exact ih (by omega) j v (by omega) hhi hok
        (fun i hi1 hi2 => hprev i (by omega) hi2)
    · have hj : j = MAX_RETRIES - (r + 1) := by
        by_contra hne
        have hlt : MAX_RETRIES - (r + 1) < j := by omega
        obtain ⟨e, he⟩ := hprev (MAX_RETRIES - (r + 1)) (by omega) hlt
        rw [he] at h
        exact Except.noConfusion h
      rw [hj] at hok
      rw [hok] at h
      obtain rfl : v = w := Except.ok.inj h
      rw [callHeliusApi.eq_def]
      simp [hok]

/-- Helper: when every attempt fails, the final attempt's error is
propagated. -/
theorem callHeliusApi_all_fail {α : Type} (attempt : Nat → Except String α) :
    ∀ r, r ≤ MAX_RETRIES →
      (∀ i, MAX_RETRIES - r ≤ i → i ≤ MAX_RETRIES → ∃ e, attempt i = .error e) →
      ∃ e, (callHeliusApi attempt r).1 = .error e ∧
        attempt MAX_RETRIES = .error e := by
  have hM : MAX_RETRIES = 3 := rfl
  intro r
  induction r with
  | zero =>
    intro _ hall
    obtain ⟨e, he⟩ := hall MAX_RETRIES (by omega) le_rfl
    exact ⟨e, by simp [callHeliusApi, he], he⟩
  | succ r ih =>
    intro hr hall
    obtain ⟨e, he⟩ := hall (MAX_RETRIES - (r + 1)) le_rfl (by omega)
    obtain ⟨e3, h1, h2⟩ := ih (by omega) (fun i hi1 hi2 => hall i (by omega) hi2)
    refine ⟨e3, ?_, h2⟩
    rw [callHeliusApi.eq_def]
    simpa only [he] using h1

/-- C4: lamports-to-SOL conversion uses the factor 10^9: for every
`getBalance` reply with lamports value `v`, `getSolBalance` returns
`v / 10^9` SOL, in both the legacy implementation (errors propagate) and
the optimized implementation (errors degrade to 0). -/
theorem claim4_lamports_conversion :
    (∀ v : Rat, getSolBalance (.ok v) = v / 10 ^ 9) ∧
    (∀ e : String, getSolBalance (.error e) = 0) ∧
    (∀ v : Rat, getSolBalanceLegacy (.ok v) = .ok (v / 10 ^ 9)) ∧
    (∀ e : String, getSolBalanceLegacy (.error e) = .error e) := by
  refine ⟨fun v => ?_, fun e => rfl, fun v => ?_, fun e => rfl⟩ <;>
    norm_num [getSolBalance, getSolBalanceLegacy]

/-- C5: on failure (HTTP error, non-ok status, or JSON-RPC error reply),
`callHeliusApi` retries up to MAX_RETRIES = 3 additional times, sleeping
RETRY_DELAY * 2^(k-1) ms before the k-th retry (1 s, 2 s, 4 s), propagates
the error only after the final retry fails, and returns the first
successful attempt's result unchanged. -/
theorem claim5_retry_backoff {α : Type} (attempt : Nat → Except String α) :
    ((callHeliusApi attempt MAX_RETRIES).2 =
      (List.range (callHeliusApi attempt MAX_RETRIES).2.length).map
        (fun j => RETRY_DELAY * 2 ^ j) ∧
      (callHeliusApi attempt MAX_RETRIES).2.length ≤ MAX_RETRIES) ∧
    (∀ j v, j ≤ MAX_RETRIES → attempt j = .ok v →
      (∀ i, i < j → ∃ e, attempt i = .error e) →
      (callHeliusApi attempt MAX_RETRIES).1 = .ok v) ∧
    ((∀ i, i ≤ MAX_RETRIES → ∃ e, attempt i = .error e) →
      ∃ e, (callHeliusApi attempt MAX_RETRIES).1 = .error e ∧
        attempt MAX_RETRIES = .error e) := by
  refine ⟨?_, ?_, ?_⟩
  · have h := callHeliusApi_delays attempt MAX_RETRIES le_rfl
    simpa using h
  · intro j v hj hok hprev
    exact callHeliusApi_first_success attempt MAX_RETRIES le_rfl j v
      (by omega) hj hok (fun i _ hi => hprev i hi)
  · intro hall
    exact callHeliusApi_all_fail attempt MAX_RETRIES le_rfl
      (fun i _ hi => hall i hi)

/-- Witness for C5: with the first two attempts failing and the third
succeeding, the result is the third attempt's value and the slept delays
are 1000 ms then 2000 ms. -/
theorem claim5_retry_backoff_witness :
    (callHeliusApi (fun n => if n < 2 then .error "boom" else .ok 7)
      MAX_RETRIES).1 = .ok 7 := by
  refine (claim5_retry_backoff
    (fun n => if n < 2 then .error "boom" else .ok 7)).2.1 2 7
    (by decide) rfl ?_
  intro i hi
  exact ⟨"boom", by simp [hi]⟩

/-- C6: TTL expiry.  For every cache map, key and ttl, `getFromCache`
returns the stored data exactly when an entry for the key exists and its
age `now - entry.timestamp` is at most `ttl`; when the age exceeds `ttl`
the entry is deleted and `null` is returned, so an expired value is never
served.  The same holds for the dedicated SOL-price slot with its 30 s TTL. -/
theorem claim6_cache_ttl :
    (∀ (T : Type) (m : List (String × CacheEntry T)) (key : String)
        (ttl now : Int),
      (∀ entry, m.lookup key = some entry →
        (now - entry.timestamp ≤ ttl →
          getFromCache m key ttl now = (some entry.data, m)) ∧
        (ttl < now - entry.timestamp →
          getFromCache m key ttl now = (none, deleteKey m key))) ∧
      (m.lookup key = none → getFromCache m key ttl now = (none, m)) ∧
      (∀ d, (getFromCache m key ttl now).1 = some d →
        ∃ entry, m.lookup key = some entry ∧ now - entry.timestamp ≤ ttl ∧
          d = entry.data)) ∧
    (∀ (slot : Option (CacheEntry Rat)) (now : Int),
      (∀ entry, slot = some entry →
        (now - entry.timestamp ≤ CACHE_TTL_SOL_PRICE →
          getSolPriceFromCache slot now = (some entry.data, slot)) ∧
        (CACHE_TTL_SOL_PRICE < now - entry.timestamp →
          getSolPriceFromCache slot now = (none, none))) ∧
      (∀ p, (getSolPriceFromCache slot now).1 = some p →
        ∃ entry, slot = some entry ∧
          now - entry.timestamp ≤ CACHE_TTL_SOL_PRICE ∧ p = entry.data)) := by
  constructor
  · intro T m key ttl now
    refine ⟨fun entry hent => ⟨fun hfresh => ?_, fun hexp => ?_⟩,
      fun hnone => ?_, fun d hd => ?_⟩
    · simp only [getFromCache, hent]
      rw [if_neg (by omega)]
    · simp only [getFromCache, hent]
      rw [if_pos (by omega)]
    · simp only [getFromCache, hnone]
    · unfold getFromCache at hd
      split at hd
      · simp at hd
      · rename_i entry hent
        split at hd
        · simp at hd
        · rename_i hage
          simp only [Option.some.injEq] at hd
          exact ⟨entry, hent, by omega, hd.symm⟩
  · intro slot now
    refine ⟨fun entry hent => ⟨fun hfresh => ?_, fun hexp => ?_⟩,
      fun p hp => ?_⟩
    · simp only [getSolPriceFromCache, hent]
      rw [if_neg (by omega)]
    · simp only [getSolPriceFromCache, hent]
      rw [if_pos (by omega)]
    · unfold getSolPriceFromCache at hp
      split at hp
      · simp at hp
      · rename_i entry
        split at hp
        · simp at hp
        · rename_i hage
          simp only [Option.some.injEq] at hp
          exact ⟨entry, rfl, by omega, hp.symm⟩

/-- Witness for C6 at concrete inputs: a fresh entry is served, a stale
entry is deleted and not served. -/
theorem claim6_cache_ttl_witness :
    getFromCache [("k", (⟨7, 100⟩ : CacheEntry Nat))] "k" 50 120 =
      (some 7, [("k", ⟨7, 100⟩)]) ∧
    getFromCache [("k", (⟨7, 100⟩ : CacheEntry Nat))] "k" 50 200 =
      (none, deleteKey [("k", ⟨7, 100⟩)] "k") := by
  constructor
  · exact (((claim6_cache_ttl.1 Nat [("k", ⟨7, 100⟩)] "k" 50 120).1
      ⟨7, 100⟩ (by decide)).1 (by decide))
  · exact (((claim6_cache_ttl.1 Nat [("k", ⟨7, 100⟩)] "k" 50 200).1
      ⟨7, 100⟩ (by decide)).2 (by decide))

/-- C1: for every fetched transaction, the classifier pattern-matches the
account keys against the hardcoded DEFI_PROGRAMS table: when at least one
table program ID occurs among the account keys, the detected protocol is
the first matching table entry in table iteration order; when none
occurs, no protocol is detected and classification falls through to the
transfer/balance-change heuristics. -/
theorem claim1_protocol_detection (keys : List String) :
    ((∃ entry ∈ DEFI_PROGRAMS, entry.2 ∈ keys) →
      ∃ i : Fin DEFI_PROGRAMS.length,
        detectProtocol keys = some (DEFI_PROGRAMS.get i) ∧
        (DEFI_PROGRAMS.get i).2 ∈ keys ∧
        ∀ j : Fin DEFI_PROGRAMS.length, (j : Nat) < (i : Nat) →
          (DEFI_PROGRAMS.get j).2 ∉ keys) ∧
    ((∀ entry ∈ DEFI_PROGRAMS, entry.2 ∉ keys) →
      detectProtocol keys = none ∧
      ∀ (fetchSymbol : String → String) (d : TxDetails),
        d.accountKeys = keys →
        classify fetchSymbol d = finishClassify fetchSymbol d
          initialClassState) := by
  constructor
  · rintro ⟨entry, hmem, hin⟩
    obtain ⟨i, hfind, hp, hmin⟩ := find_first
      (fun pr => decide (pr.2 ∈ keys)) DEFI_PROGRAMS
      ⟨entry, hmem, decide_eq_true hin⟩
    refine ⟨i, hfind, of_decide_eq_true hp, ?_⟩
    intro j hj hmem2
    exact hmin j hj (decide_eq_true hmem2)
  · intro hnone
    have hdet : detectProtocol keys = none := by
      refine List.find?_eq_none.mpr (fun x hx => ?_)
      simpa using hnone x hx
    refine ⟨hdet, fun fetchSymbol d hkeys => ?_⟩
    rw [classify, hkeys, hdet]

/-- Witness for C1: a key list containing only the Raydium AMM program ID
detects Raydium (table index 2) with no earlier entry matching; a key
list with no table ID detects nothing and falls through. -/
theorem claim1_protocol_detection_witness :
    (∃ i : Fin DEFI_PROGRAMS.length,
      detectProtocol ["675kPX9MHTjS2zt1qfr1NYHuzeLXfQM9H24wFSUt1Mp8"] =
        some (DEFI_PROGRAMS.get i) ∧
      (DEFI_PROGRAMS.get i).2 ∈
        ["675kPX9MHTjS2zt1qfr1NYHuzeLXfQM9H24wFSUt1Mp8"] ∧
      ∀ j : Fin DEFI_PROGRAMS.length, (j : Nat) < (i : Nat) →
        (DEFI_PROGRAMS.get j).2 ∉
          ["675kPX9MHTjS2zt1qfr1NYHuzeLXfQM9H24wFSUt1Mp8"]) ∧
    detectProtocol ["someUnknownKey"] = none := by
  constructor
  · exact (claim1_protocol_detection
      ["675kPX9MHTjS2zt1qfr1NYHuzeLXfQM9H24wFSUt1Mp8"]).1
      ⟨("Raydium", "675kPX9MHTjS2zt1qfr1NYHuzeLXfQM9H24wFSUt1Mp8"),
        by decide, by decide⟩
  · exact ((claim1_protocol_detection ["someUnknownKey"]).2 (by decide)).1

/-- Helper: what the Jupiter branch produces when it finds a sent and a
received token transfer. -/
theorem jupiterRule_spec (fetchSymbol : String → String)
    (instructions : List Instruction) (walletAddress : Option String)
    (st : ClassState) (dp : String) (sentTok receivedTok : TokenTransfer)
    (hsent : ((jupiterTokenTransfers fetchSymbol instructions
      walletAddress).filter (fun t => t.amount < 0)).head? = some sentTok)
    (hrecv : ((jupiterTokenTransfers fetchSymbol instructions
      walletAddress).filter (fun t => 0 < t.amount)).head? =
      some receivedTok) :
    jupiterRule fetchSymbol dp instructions walletAddress st = some
      { st with
        description := "SWAP: " ++ toFixed 6 (mathAbs sentTok.amount) ++ " " ++
          sentTok.symbol ++ " " ++ jsArrow ++ " " ++
          toFixed 6 receivedTok.amount ++ " " ++ receivedTok.symbol ++
          "; " ++ dp
        isSwap := true
        type := "Swap"
        detailedType := "Token Swap"
        fromToken := sentTok.symbol
        toToken := receivedTok.symbol
        fromAmount := (mathAbs sentTok.amount)
        toAmount := receivedTok.amount
        amount := mathMax (mathAbs sentTok.amount) receivedTok.amount
        protocol := dp
        token := sentTok.symbol } := by
  have hsne : (jupiterTokenTransfers fetchSymbol instructions
      walletAddress).filter (fun t => t.amount < 0) ≠ [] := by
    intro h; rw [h] at hsent; exact Option.noConfusion hsent
  have hrne : (jupiterTokenTransfers fetchSymbol instructions
      walletAddress).filter (fun t => 0 < t.amount) ≠ [] := by
    intro h; rw [h] at hrecv; exact Option.noConfusion hrecv
  have h2 : 2 ≤ (jupiterTokenTransfers fetchSymbol instructions
      walletAddress).length := by
    refine two_le_of_disjoint_filters _ _ (fun x hx => ?_) _ hsne hrne
    obtain ⟨h1, h2⟩ := hx
    have ha := of_decide_eq_true h1
    have hb := of_decide_eq_true h2
    linarith
  unfold jupiterRule
  rw [if_pos h2]
  simp only [hsent, hrecv]

/-- C3: for every Jupiter transaction in which the classifier finds a
token transfer sent from the wallet and one received by it, the result
has type "Swap", isSwap true, fromToken/fromAmount and toToken/toAmount
set to the first sent and first received transfer's symbol and amount, and
a description naming both amounts, both symbols, and the protocol. -/
theorem claim3_jupiter_swap (fetchSymbol : String → String) (nowSec : Int)
    (d : TxDetails) (sig : String) (sentTok receivedTok : TokenTransfer)
    (hjup : "JUP6LkbZbjS1jKKwapdHNy74zcZ3tLUZoi5QNyVTaV4" ∈ d.accountKeys)
    (hsent : ((jupiterTokenTransfers fetchSymbol d.instructions
      d.accountKeys.head?).filter (fun t => t.amount < 0)).head? =
      some sentTok)
    (hrecv : ((jupiterTokenTransfers fetchSymbol d.instructions
      d.accountKeys.head?).filter (fun t => 0 < t.amount)).head? =
      some receivedTok) :
    ∃ tx, getTransactionDetails fetchSymbol nowSec (some d) sig = some tx ∧
      tx.type = "Swap" ∧ tx.isSwap = true ∧
      tx.fromToken = sentTok.symbol ∧ tx.fromAmount = (mathAbs sentTok.amount) ∧
      tx.toToken = receivedTok.symbol ∧ tx.toAmount = receivedTok.amount ∧
      tx.protocol = "Jupiter" ∧
      tx.description = "SWAP: " ++ toFixed 6 (mathAbs sentTok.amount) ++ " " ++
        sentTok.symbol ++ " " ++ jsArrow ++ " " ++
        toFixed 6 receivedTok.amount ++ " " ++ receivedTok.symbol ++
        "; " ++ "Jupiter" ∧
      sentTok.symbol.toList <:+: tx.description.toList ∧
      receivedTok.symbol.toList <:+: tx.description.toList ∧
      "Jupiter".toList <:+: tx.description.toList ∧
      (toFixed 6 (mathAbs sentTok.amount)).toList <:+: tx.description.toList ∧
      (toFixed 6 receivedTok.amount).toList <:+: tx.description.toList := by
  have hdet : detectProtocol d.accountKeys =
      some ("Jupiter", "JUP6LkbZbjS1jKKwapdHNy74zcZ3tLUZoi5QNyVTaV4") := by
    unfold detectProtocol DEFI_PROGRAMS
    exact List.find?_cons_of_pos _ (decide_eq_true hjup)
  have hjr := jupiterRule_spec fetchSymbol d.instructions d.accountKeys.head?
    { initialClassState with protocol := "Jupiter" } "Jupiter"
    sentTok receivedTok hsent hrecv
  have happ : applyProtocolRules fetchSymbol "Jupiter" d.instructions
      d.meta.preTokenBalances d.meta.postTokenBalances
      d.meta.preBalances d.meta.postBalances d.accountKeys.head?
      { initialClassState with protocol := "Jupiter" } =
      { initialClassState with
        description := "SWAP: " ++ toFixed 6 (mathAbs sentTok.amount) ++ " " ++
          sentTok.symbol ++ " " ++ jsArrow ++ " " ++
          toFixed 6 receivedTok.amount ++ " " ++ receivedTok.symbol ++
          "; " ++ "Jupiter"
        isSwap := true
        type := "Swap"
        detailedType := "Token Swap"
        fromToken := sentTok.symbol
        toToken := receivedTok.symbol
        fromAmount := (mathAbs sentTok.amount)
        toAmount := receivedTok.amount
        amount := mathMax (mathAbs sentTok.amount) receivedTok.amount
        protocol := "Jupiter"
        token := sentTok.symbol } := by
    simp only [applyProtocolRules, hjr]
    norm_num
  have hclass : classify fetchSymbol d =
      { initialClassState with
        description := "SWAP: " ++ toFixed 6 (mathAbs sentTok.amount) ++ " " ++
          sentTok.symbol ++ " " ++ jsArrow ++ " " ++
          toFixed 6 receivedTok.amount ++ " " ++ receivedTok.symbol ++
          "; " ++ "Jupiter"
        isSwap := true
        type := "Swap"
        detailedType := "Token Swap"
        fromToken := sentTok.symbol
        toToken := receivedTok.symbol
        fromAmount := (mathAbs sentTok.amount)
        toAmount := receivedTok.amount
        amount := mathMax (mathAbs sentTok.amount) receivedTok.amount
        protocol := "Jupiter"
        token := sentTok.symbol } := by
    rw [classify, hdet]
    simp only [happ]
    simp [finishClassify]
  have hne : ("SWAP: " ++ toFixed 6 (mathAbs sentTok.amount) ++ " " ++
      sentTok.symbol ++ " " ++ jsArrow ++ " " ++
      toFixed 6 receivedTok.amount ++ " " ++ receivedTok.symbol ++
      "; " ++ "Jupiter") ≠ "" :=
    str_append_ne_empty_right _ "Jupiter" (by decide)
  have hlist : ("SWAP: " ++ toFixed 6 (mathAbs sentTok.amount) ++ " " ++
      sentTok.symbol ++ " " ++ jsArrow ++ " " ++
      toFixed 6 receivedTok.amount ++ " " ++ receivedTok.symbol ++
      "; " ++ "Jupiter").toList =
      "SWAP: ".toList ++ (toFixed 6 (mathAbs sentTok.amount)).toList ++
      " ".toList ++ sentTok.symbol.toList ++ " ".toList ++
      jsArrow.toList ++ " ".toList ++
      (toFixed 6 receivedTok.amount).toList ++ " ".toList ++
      receivedTok.symbol.toList ++ "; ".toList ++ "Jupiter".toList := by
    simp [String.toList, String.data_append]
  have hinf1 : sentTok.symbol.toList <:+: ("SWAP: " ++
      toFixed 6 (mathAbs sentTok.amount) ++ " " ++ sentTok.symbol ++ " " ++
      jsArrow ++ " " ++ toFixed 6 receivedTok.amount ++ " " ++
      receivedTok.symbol ++ "; " ++ "Jupiter").toList := by
    refine ⟨"SWAP: ".toList ++ (toFixed 6 (mathAbs sentTok.amount)).toList ++
      " ".toList, " ".toList ++ jsArrow.toList ++ " ".toList ++
      (toFixed 6 receivedTok.amount).toList ++ " ".toList ++
      receivedTok.symbol.toList ++ "; ".toList ++ "Jupiter".toList, ?_⟩
    rw [hlist]
    simp [List.append_assoc]
  have hinf2 : receivedTok.symbol.toList <:+: ("SWAP: " ++
      toFixed 6 (mathAbs sentTok.amount) ++ " " ++ sentTok.symbol ++ " " ++
      jsArrow ++ " " ++ toFixed 6 receivedTok.amount ++ " " ++
      receivedTok.symbol ++ "; " ++ "Jupiter").toList := by
    refine ⟨"SWAP: ".toList ++ (toFixed 6 (mathAbs sentTok.amount)).toList ++
      " ".toList ++ sentTok.symbol.toList ++ " ".toList ++
      jsArrow.toList ++ " ".toList ++
      (toFixed 6 receivedTok.amount).toList ++ " ".toList,
      "; ".toList ++ "Jupiter".toList, ?_⟩
    rw [hlist]
    simp [List.append_assoc]
  have hinf3 : "Jupiter".toList <:+: ("SWAP: " ++
      toFixed 6 (mathAbs sentTok.amount) ++ " " ++ sentTok.symbol ++ " " ++
      jsArrow ++ " " ++ toFixed 6 receivedTok.amount ++ " " ++
      receivedTok.symbol ++ "; " ++ "Jupiter").toList := by
    refine ⟨"SWAP: ".toList ++ (toFixed 6 (mathAbs sentTok.amount)).toList ++
      " ".toList ++ sentTok.symbol.toList ++ " ".toList ++
      jsArrow.toList ++ " ".toList ++
      (toFixed 6 receivedTok.amount).toList ++ " ".toList ++
      receivedTok.symbol.toList ++ "; ".toList, [], ?_⟩
    rw [hlist]
    simp [List.append_assoc]
  have hinf4 : (toFixed 6 (mathAbs sentTok.amount)).toList <:+: ("SWAP: " ++
      toFixed 6 (mathAbs sentTok.amount) ++ " " ++ sentTok.symbol ++ " " ++
      jsArrow ++ " " ++ toFixed 6 receivedTok.amount ++ " " ++
      receivedTok.symbol ++ "; " ++ "Jupiter").toList := by
    refine ⟨"SWAP: ".toList, " ".toList ++ sentTok.symbol.toList ++
      " ".toList ++ jsArrow.toList ++ " ".toList ++
      (toFixed 6 receivedTok.amount).toList ++ " ".toList ++
      receivedTok.symbol.toList ++ "; ".toList ++ "Jupiter".toList, ?_⟩
    rw [hlist]
    simp [List.append_assoc]
  have hinf5 : (toFixed 6 receivedTok.amount).toList <:+: ("SWAP: " ++
      toFixed 6 (mathAbs sentTok.amount) ++ " " ++ sentTok.symbol ++ " " ++
      jsArrow ++ " " ++ toFixed 6 receivedTok.amount ++ " " ++
      receivedTok.symbol ++ "; " ++ "Jupiter").toList := by
    refine ⟨"SWAP: ".toList ++ (toFixed 6 (mathAbs sentTok.amount)).toList ++
      " ".toList ++ sentTok.symbol.toList ++ " ".toList ++
      jsArrow.toList ++ " ".toList, " ".toList ++
      receivedTok.symbol.toList ++ "; ".toList ++ "Jupiter".toList, ?_⟩
    rw [hlist]
    simp [List.append_assoc]
  have hmain : getTransactionDetails fetchSymbol nowSec (some d) sig =
      some {
        signature := sig
        type := "Swap"
        token := sentTok.symbol
        amount := mathMax (mathAbs sentTok.amount) receivedTok.amount
        timestamp := match d.blockTime with
          | some t => if t ≠ 0 then t else nowSec
          | none => nowSec
        status := if d.meta.err then "failed" else "success"
        slot := d.slot
        fee := match d.meta.fee with
          | some f => if f ≠ 0 then (f : Rat) / 1000000000 else 0
          | none => 0
        fromToken := sentTok.symbol
        toToken := receivedTok.symbol
        fromAmount := (mathAbs sentTok.amount)
        toAmount := receivedTok.amount
        isSwap := true
        protocol := "Jupiter"
        description := "SWAP: " ++ toFixed 6 (mathAbs sentTok.amount) ++ " " ++
          sentTok.symbol ++ " " ++ jsArrow ++ " " ++
          toFixed 6 receivedTok.amount ++ " " ++ receivedTok.symbol ++
          "; " ++ "Jupiter"
        detailedType := "Token Swap" } := by
    rw [getTransactionDetails, hclass]
    simp only [if_neg hne]
  exact ⟨_, hmain, rfl, rfl, rfl, rfl, rfl, rfl, rfl, rfl,
    hinf1, hinf2, hinf3, hinf4, hinf5⟩

/-- Witness for C3: a concrete Jupiter transaction sending 0.001 SOL from
the wallet and receiving 45 USDC is classified as a Swap. -/
theorem claim3_jupiter_swap_witness :
    ∃ tx, getTransactionDetails (fun _ => "UNK") 0 (some {
        instructions := [
          ⟨some "transfer", ⟨some "W", none, some 1000000,
            some "So11111111111111111111111111111111111111112", some 9⟩⟩,
          ⟨some "transfer", ⟨some "X", none, some 45000000,
            some "EPjFWdd5AufqSSqeM2qN1xzybapC8G4wEGGkZwyTDt1v", some 6⟩⟩]
        accountKeys := ["W", "JUP6LkbZbjS1jKKwapdHNy74zcZ3tLUZoi5QNyVTaV4"]
        meta := {}
        blockTime := some 5
        slot := some 1 }) "sig" = some tx ∧
      tx.type = "Swap" ∧ tx.isSwap = true ∧
      tx.fromToken = "SOL" ∧ tx.toToken = "USDC" ∧ tx.protocol = "Jupiter" := by
  have htr : jupiterTokenTransfers (fun _ => "UNK")
      [⟨some "transfer", ⟨some "W", none, some 1000000,
        some "So11111111111111111111111111111111111111112", some 9⟩⟩,
       ⟨some "transfer", ⟨some "X", none, some 45000000,
        some "EPjFWdd5AufqSSqeM2qN1xzybapC8G4wEGGkZwyTDt1v", some 6⟩⟩]
      (some "W") =
      [⟨"SOL", -(1 / 1000 : Rat),
        "So11111111111111111111111111111111111111112"⟩,
       ⟨"USDC", 45, "EPjFWdd5AufqSSqeM2qN1xzybapC8G4wEGGkZwyTDt1v"⟩] := by
    norm_num [jupiterTokenTransfers, getTokenSymbolFast, COMMON_TOKENS,
      pow10, List.lookup, List.filterMap_cons, List.filterMap_nil]
    decide
  obtain ⟨tx, h1, h2, h3, h4, -, h6, -, h8, -⟩ :=
    claim3_jupiter_swap (fun _ => "UNK") 0 {
        instructions := [
          ⟨some "transfer", ⟨some "W", none, some 1000000,
            some "So11111111111111111111111111111111111111112", some 9⟩⟩,
          ⟨some "transfer", ⟨some "X", none, some 45000000,
            some "EPjFWdd5AufqSSqeM2qN1xzybapC8G4wEGGkZwyTDt1v", some 6⟩⟩]
        accountKeys := ["W", "JUP6LkbZbjS1jKKwapdHNy74zcZ3tLUZoi5QNyVTaV4"]
        meta := {}
        blockTime := some 5
        slot := some 1 } "sig"
      ⟨"SOL", -(1 / 1000 : Rat), "So11111111111111111111111111111111111111112"⟩
      ⟨"USDC", 45, "EPjFWdd5AufqSSqeM2qN1xzybapC8G4wEGGkZwyTDt1v"⟩
      (by simp)
      (by rw [show ({
          instructions := [
            ⟨some "transfer", ⟨some "W", none, some 1000000,
              some "So11111111111111111111111111111111111111112", some 9⟩⟩,
            ⟨some "transfer", ⟨some "X", none, some 45000000,
              some "EPjFWdd5AufqSSqeM2qN1xzybapC8G4wEGGkZwyTDt1v", some 6⟩⟩]
          accountKeys := ["W", "JUP6LkbZbjS1jKKwapdHNy74zcZ3tLUZoi5QNyVTaV4"]
          meta := {}
          blockTime := some 5
          slot := some 1 } : TxDetails).instructions = [
            ⟨some "transfer", ⟨some "W", none, some 1000000,
              some "So11111111111111111111111111111111111111112", some 9⟩⟩,
            ⟨some "transfer", ⟨some "X", none, some 45000000,
              some "EPjFWdd5AufqSSqeM2qN1xzybapC8G4wEGGkZwyTDt1v", some 6⟩⟩]
          from rfl]
          norm_num [htr])
      (by rw [show ({
          instructions := [
            ⟨some "transfer", ⟨some "W", none, some 1000000,
              some "So11111111111111111111111111111111111111112", some 9⟩⟩,
            ⟨some "transfer", ⟨some "X", none, some 45000000,
              some "EPjFWdd5AufqSSqeM2qN1xzybapC8G4wEGGkZwyTDt1v", some 6⟩⟩]
          accountKeys := ["W", "JUP6LkbZbjS1jKKwapdHNy74zcZ3tLUZoi5QNyVTaV4"]
          meta := {}
          blockTime := some 5
          slot := some 1 } : TxDetails).instructions = [
            ⟨some "transfer", ⟨some "W", none, some 1000000,
              some "So11111111111111111111111111111111111111112", some 9⟩⟩,
            ⟨some "transfer", ⟨some "X", none, some 45000000,
              some "EPjFWdd5AufqSSqeM2qN1xzybapC8G4wEGGkZwyTDt1v", some 6⟩⟩]
          from rfl]
          norm_num [htr])
  exact ⟨tx, h1, h2, h3, h4, h6, h8⟩

/-- Helper: the Jupiter branch, when it handles a transaction, labels it
a Swap. -/
theorem jupiterRule_type (f : String → String) (dp : String)
    (instrs : List Instruction) (w : Option String) (st s : ClassState)
    (h : jupiterRule f dp instrs w st = some s) : s.type = "Swap" := by
  simp only [jupiterRule] at h
  repeat' split at h
  all_goals first
    | exact Option.noConfusion h
    | (injection h with h2; subst h2; simp)

/-- Helper: labels the DEX branch can produce. -/
theorem dexRule_type (dp : String) (changes : List BalanceChange)
    (st s : ClassState) (h : dexRule dp changes st = some s) :
    s.type = "Liquidity" ∨ s.type = "Swap" ∨ s.type = "Unstake" ∨
      s.type = "Stake" := by
  simp only [dexRule] at h
  repeat' split at h
  all_goals first
    | exact Option.noConfusion h
    | (injection h with h2; subst h2; simp)

/-- Helper: labels the lending branch can produce. -/
theorem lendingRule_type (dp : String) (changes : List BalanceChange)
    (st s : ClassState) (h : lendingRule dp changes st = some s) :
    s.type = "Borrow" ∨ s.type = "Receive" ∨ s.type = "Repay" ∨
      s.type = "Send" := by
  simp only [lendingRule] at h
  repeat' split at h
  all_goals first
    | exact Option.noConfusion h
    | (injection h with h2; subst h2; simp)

/-- Helper: labels the Wormhole branch can produce. -/
theorem wormholeRule_type (changes : List BalanceChange)
    (st s : ClassState) (h : wormholeRule changes st = some s) :
    s.type = "Receive" ∨ s.type = "Send" := by
  simp only [wormholeRule] at h
  repeat' split at h
  all_goals first
    | exact Option.noConfusion h
    | (injection h with h2; subst h2; simp)

/-- Helper: labels the staking branch can produce. -/
theorem stakingRule_type (dp : String) (changes : List BalanceChange)
    (st s : ClassState) (h : stakingRule dp changes st = some s) :
    s.type = "Unstake" ∨ s.type = "Stake" := by
  simp only [stakingRule] at h
  repeat' split at h
  all_goals first
    | exact Option.noConfusion h
    | (injection h with h2; subst h2; simp)

/-- Helper: every protocol branch leaves a nonempty type label. -/
theorem applyProtocolRules_type_ne (f : String → String) (dp : String)
    (instrs : List Instruction) (preTok postTok : List TokenBalance)
    (preSol postSol : List Int) (w : Option String) (st : ClassState) :
    (applyProtocolRules f dp instrs preTok postTok preSol postSol w
      st).type ≠ "" := by
  simp only [applyProtocolRules]
  split
  · rename_i s heq
    split at heq
    · rw [jupiterRule_type _ _ _ _ _ _ heq]
      simp
    · exact Option.noConfusion heq
  split
  · rename_i s heq
    split at heq
    · rcases dexRule_type _ _ _ _ heq with h | h | h | h <;> rw [h] <;> simp
    · exact Option.noConfusion heq
  split
  · rename_i s heq
    split at heq
    · rcases lendingRule_type _ _ _ _ heq with h | h | h | h <;> rw [h] <;>
        simp
    · exact Option.noConfusion heq
  split
  · simp
  split
  · rename_i s heq
    split at heq
    · rcases wormholeRule_type _ _ _ heq with h | h <;> rw [h] <;> simp
    · exact Option.noConfusion heq
  split
  · simp
  split
  · rename_i s heq
    split at heq
    · rcases stakingRule_type _ _ _ _ heq with h | h <;> rw [h] <;> simp
    · exact Option.noConfusion heq
  split
  · simp
  split
  · simp
  · simp

/-- Helper: the transfer fallback either leaves the label alone or labels
the transaction Send/Receive. -/
theorem transferFallback_type (f : String → String) :
    ∀ (instrs : List Instruction) (w : Option String) (st : ClassState),
      (transferFallback f instrs w st).type = st.type ∨
      (transferFallback f instrs w st).type = "Send" ∨
      (transferFallback f instrs w st).type = "Receive" := by
  intro instrs
  induction instrs with
  | nil => intro w st; left; rfl
  | cons instr rest ih =>
    intro w st
    simp only [transferFallback]
    split
    · split
      · by_cases hs : instr.info.source = w
        · right; left; simp [hs]
        · right; right; simp [hs]
      · split
        · by_cases hs : instr.info.source = w
          · right; left; simp [hs]
          · right; right; simp [hs]
        · exact ih w st
    · exact ih w st

/-- Helper: the transfer fallback is the identity when no instruction has
parsed type "transfer". -/
theorem transferFallback_no_transfer (f : String → String) :
    ∀ (instrs : List Instruction) (w : Option String) (st : ClassState),
      (∀ instr ∈ instrs, instr.parsedType ≠ some "transfer") →
      transferFallback f instrs w st = st := by
  intro instrs
  induction instrs with
  | nil => intro w st _; rfl
  | cons instr rest ih =>
    intro w st hno
    simp only [transferFallback]
    rw [if_neg (hno instr (List.mem_cons_self _ _))]
    exact ih w st (fun i hi => hno i (List.mem_cons_of_mem _ hi))

/-- Helper: the SOL balance-change fallback either leaves the label alone
or labels the transaction Send/Receive. -/
theorem solDiffFallback_type (keys : List String) (preS postS : List Int)
    (w : Option String) (st : ClassState) :
    (solDiffFallback keys preS postS w st).type = st.type ∨
    (solDiffFallback keys preS postS w st).type = "Receive" ∨
    (solDiffFallback keys preS postS w st).type = "Send" := by
  simp only [solDiffFallback]
  repeat' split
  all_goals first
    | (left; rfl)
    | (right; left; rfl)
    | (right; right; rfl)

/-- Helper: after the final fallback the label is never empty. -/
theorem finishClassify_type_ne (f : String → String) (d : TxDetails)
    (st1 : ClassState) (h : st1.type ≠ "") :
    (finishClassify f d st1).type ≠ "" := by
  have hTF : ∀ st : ClassState, st.type ≠ "" →
      (transferFallback f d.instructions d.accountKeys.head? st).type ≠ "" := by
    intro st hst
    rcases transferFallback_type f d.instructions d.accountKeys.head? st with
      h2 | h2 | h2 <;> rw [h2]
    · exact hst
    · simp
    · simp
  have hSD : ∀ st : ClassState, st.type ≠ "" →
      (solDiffFallback d.accountKeys d.meta.preBalances d.meta.postBalances
        d.accountKeys.head? st).type ≠ "" := by
    intro st hst
    rcases solDiffFallback_type d.accountKeys d.meta.preBalances
      d.meta.postBalances d.accountKeys.head? st with h2 | h2 | h2 <;> rw [h2]
    · exact hst
    · simp
    · simp
  obtain ⟨st2, hst2⟩ : ∃ st2, (if st1.type = "unknown" then
      transferFallback f d.instructions d.accountKeys.head? st1 else st1) =
      st2 := ⟨_, rfl⟩
  have h2 : st2.type ≠ "" := by
    rw [← hst2]
    split
    · exact hTF _ h
    · exact h
  obtain ⟨st3, hst3⟩ : ∃ st3, (if st2.type = "unknown" ∧
      d.meta.preBalances ≠ [] ∧ d.meta.postBalances ≠ [] then
      solDiffFallback d.accountKeys d.meta.preBalances d.meta.postBalances
        d.accountKeys.head? st2 else st2) = st3 := ⟨_, rfl⟩
  have h3 : st3.type ≠ "" := by
    rw [← hst3]
    split
    · exact hSD _ h2
    · exact h2
  have hfc : finishClassify f d st1 = if st3.type = "unknown" then
      { st3 with
        type := "Unknown"
        detailedType := "Unknown Transaction"
        description := "Unknown transaction type"
        protocol := "Unknown" }
      else st3 := by
    simp only [finishClassify, hst2, hst3]
  rw [hfc]
  split
  · simp
  · exact h3

/-- Helper: the classifier never leaves an empty type label. -/
theorem classify_type_ne (f : String → String) (d : TxDetails) :
    (classify f d).type ≠ "" := by
  unfold classify
  rcases hdp : detectProtocol d.accountKeys with _ | ⟨name, pid⟩
  · exact finishClassify_type_ne f d _ (by simp [initialClassState])
  · exact finishClassify_type_ne f d _
      (applyProtocolRules_type_ne f name d.instructions
        d.meta.preTokenBalances d.meta.postTokenBalances
        d.meta.preBalances d.meta.postBalances d.accountKeys.head? _)

/-- Helper: the SOL balance-change fallback leaves the state unchanged
when the wallet's balance change is within the dust threshold. -/
theorem solDiffFallback_skip (d : TxDetails) (st : ClassState)
    (h3 : mathAbs (walletSolDiff d) ≤ 1 / 1000000000)
    (hpre : d.meta.preBalances ≠ []) (hpost : d.meta.postBalances ≠ []) :
    solDiffFallback d.accountKeys d.meta.preBalances d.meta.postBalances
      d.accountKeys.head? st = st := by
  rcases hk : d.accountKeys.head? with _ | w
  · simp [solDiffFallback, hk]
  · rcases hidx : d.accountKeys.findIdx? (fun k => k = w) with _ | idx
    · simp [solDiffFallback, hk, hidx]
    · rcases hpre0 : d.meta.preBalances.get? idx with _ | pre
      · have hpre0g : d.meta.preBalances[idx]? = none :=
          (List.get?_eq_getElem? _ _).symm.trans hpre0
        simp [solDiffFallback, hk, hidx, hpre0g]
      · have hpre0g : d.meta.preBalances[idx]? = some pre :=
          (List.get?_eq_getElem? _ _).symm.trans hpre0
        rcases hpost0 : d.meta.postBalances.get? idx with _ | post
        · have hpost0g : d.meta.postBalances[idx]? = none :=
            (List.get?_eq_getElem? _ _).symm.trans hpost0
          simp [solDiffFallback, hk, hidx, hpre0g, hpost0g]
        · have hpost0g : d.meta.postBalances[idx]? = some post :=
            (List.get?_eq_getElem? _ _).symm.trans hpost0
          have hws : walletSolDiff d =
              (post : Rat) / 1000000000 - (pre : Rat) / 1000000000 := by
            rw [walletSolDiff, if_pos ⟨hpre, hpost⟩, hk]
            simp only [hidx, hpre0, hpost0]
          have hno : ¬ (1 / 1000000000 < mathAbs ((post : Rat) / 1000000000 -
              (pre : Rat) / 1000000000)) := by
            rw [← hws]
            exact not_lt.mpr h3
          simp only [solDiffFallback, hk, hidx, hpre0, hpost0]
          rw [if_neg hno]

/-- C2: classification always produces a label and defaults to Unknown:
for every transaction with no DEFI_PROGRAMS id among its account keys, no
parsed transfer instruction, and a wallet SOL balance change of at most
the dust threshold 10^-9 SOL, `getTransactionDetails` returns a
transaction with type "Unknown" and description "Unknown transaction
type"; and it never returns a transaction with an empty label. -/
theorem claim2_unknown_default (fetchSymbol : String → String)
    (nowSec : Int) (sig : String) (d : TxDetails)
    (h1 : ∀ entry ∈ DEFI_PROGRAMS, entry.2 ∉ d.accountKeys)
    (h2 : ∀ instr ∈ d.instructions, instr.parsedType ≠ some "transfer")
    (h3 : mathAbs (walletSolDiff d) ≤ 1 / 1000000000) :
    (∃ tx, getTransactionDetails fetchSymbol nowSec (some d) sig = some tx ∧
      tx.type = "Unknown" ∧ tx.description = "Unknown transaction type") ∧
    (∀ (d2 : TxDetails) (tx2 : Transaction),
      getTransactionDetails fetchSymbol nowSec (some d2) sig = some tx2 →
      tx2.type ≠ "" ∧ tx2.description ≠ "") := by
  constructor
  · have hdet : detectProtocol d.accountKeys = none := by
      refine List.find?_eq_none.mpr (fun x hx => ?_)
      simpa using h1 x hx
    have hTFeq : transferFallback fetchSymbol d.instructions
        d.accountKeys.head? initialClassState = initialClassState :=
      transferFallback_no_transfer fetchSymbol d.instructions _ _ h2
    have hfin : finishClassify fetchSymbol d initialClassState =
        { initialClassState with
          type := "Unknown"
          detailedType := "Unknown Transaction"
          description := "Unknown transaction type"
          protocol := "Unknown" } := by
      by_cases hbal : d.meta.preBalances ≠ [] ∧ d.meta.postBalances ≠ []
      · have hsd := solDiffFallback_skip d initialClassState h3 hbal.1 hbal.2
        simp only [finishClassify]
        rw [if_pos (show initialClassState.type = "unknown" from rfl), hTFeq]
        rw [if_pos (⟨rfl, hbal.1, hbal.2⟩ :
          initialClassState.type = "unknown" ∧ d.meta.preBalances ≠ [] ∧
          d.meta.postBalances ≠ [])]
        rw [hsd]
        rw [if_pos (show initialClassState.type = "unknown" from rfl)]
      · have hcond : ¬ (initialClassState.type = "unknown" ∧
            d.meta.preBalances ≠ [] ∧ d.meta.postBalances ≠ []) := by
          rintro ⟨-, hb1, hb2⟩
          exact hbal ⟨hb1, hb2⟩
        simp only [finishClassify]
        rw [if_pos (show initialClassState.type = "unknown" from rfl), hTFeq]
        rw [if_neg hcond]
        rw [if_pos (show initialClassState.type = "unknown" from rfl)]
    have hclass : classify fetchSymbol d =
        { initialClassState with
          type := "Unknown"
          detailedType := "Unknown Transaction"
          description := "Unknown transaction type"
          protocol := "Unknown" } := by
      rw [classify, hdet, hfin]
    have hmain : getTransactionDetails fetchSymbol nowSec (some d) sig =
        some {
          signature := sig
          type := "Unknown"
          token := "SOL"
          amount := 0
          timestamp := match d.blockTime with
            | some t => if t ≠ 0 then t else nowSec
            | none => nowSec
          status := if d.meta.err then "failed" else "success"
          slot := d.slot
          fee := match d.meta.fee with
            | some f2 => if f2 ≠ 0 then (f2 : Rat) / 1000000000 else 0
            | none => 0
          fromToken := ""
          toToken := ""
          fromAmount := 0
          toAmount := 0
          isSwap := false
          protocol := "Unknown"
          description := "Unknown transaction type"
          detailedType := "Unknown Transaction" } := by
      rw [getTransactionDetails, hclass]
      simp [initialClassState]
    exact ⟨_, hmain, rfl, rfl⟩
  · intro d2 tx2 htx
    have hty := classify_type_ne fetchSymbol d2
    simp only [getTransactionDetails, Option.some.injEq] at htx
    subst htx
    refine ⟨hty, ?_⟩
    by_cases hdesc : (classify fetchSymbol d2).description = ""
    · simpa [hdesc] using hty
    · simpa [hdesc] using hdesc

/-- Witness for C2: a transaction with a single unknown account key, no
instructions and no balance data is labelled Unknown. -/
theorem claim2_unknown_default_witness :
    ∃ tx, getTransactionDetails (fun _ => "UNK") 0 (some {
        instructions := []
        accountKeys := ["someUnknownKey"]
        meta := {}
        blockTime := some 3
        slot := some 1 }) "sig" = some tx ∧
      tx.type = "Unknown" ∧ tx.description = "Unknown transaction type" := by
  exact (claim2_unknown_default (fun _ => "UNK") 0 "sig" {
      instructions := []
      accountKeys := ["someUnknownKey"]
      meta := {}
      blockTime := some 3
      slot := some 1 }
    (by decide) (by simp)
    (by norm_num [walletSolDiff, mathAbs])).1

/-- Helper: the recorded list after a call is the filtered old list plus
the arrival time. -/
theorem waitForSlot_fst (s : List Int) (now : Int) (maxRequests : Nat)
    (windowMs : Int) :
    (waitForSlot s now maxRequests windowMs).1 =
      s.filter (fun ts => ts > now - windowMs) ++ [now] := rfl

/-- Helper: under the limit, the call resolves immediately. -/
theorem waitForSlot_snd_low (s : List Int) (now : Int) (maxRequests : Nat)
    (windowMs : Int)
    (h : ¬ maxRequests ≤ (s.filter (fun ts => ts > now - windowMs)).length) :
    (waitForSlot s now maxRequests windowMs).2 = now := by
  simp [waitForSlot, h]

/-- Helper: at the limit, the call resolves when the oldest in-window
request leaves the window. -/
theorem waitForSlot_snd_high (s : List Int) (now : Int) (maxRequests : Nat)
    (windowMs : Int) (oldest : Int)
    (hc : maxRequests ≤ (s.filter (fun ts => ts > now - windowMs)).length)
    (hhead : (s.filter (fun ts => ts > now - windowMs)).head? = some oldest) :
    (waitForSlot s now maxRequests windowMs).2 = oldest + windowMs := by
  have hmem : oldest ∈ s.filter (fun ts => ts > now - windowMs) :=
    List.mem_of_mem_head? (by rw [hhead]; exact Option.mem_some_self oldest)
  have holdW : oldest > now - windowMs := by
    have := (List.mem_filter.mp hmem).2
    exact of_decide_eq_true this
  have hpos : 0 < oldest + windowMs - now := by omega
  simp only [waitForSlot, hc, if_true, hhead]
  rw [if_pos hpos]
  omega

/-- Helper: one sequential call preserves the window invariant (at most
`maxRequests` recorded timestamps can still lie in the live window at any
time at or after the call resolves) and leaves at most `maxRequests + 1`
recorded timestamps. -/
theorem waitForSlot_inv (maxRequests : Nat) (windowMs : Int)
    (hmax : 1 ≤ maxRequests) (s : List Int) (now : Int)
    (hcur : (s.filter (fun ts => ts > now - windowMs)).length ≤ maxRequests) :
    (∀ t, (waitForSlot s now maxRequests windowMs).2 ≤ t →
      ((waitForSlot s now maxRequests windowMs).1.filter
        (fun ts => ts > t - windowMs)).length ≤ maxRequests) ∧
    (waitForSlot s now maxRequests windowMs).1.length ≤ maxRequests + 1 := by
  constructor
  · intro t ht
    rw [waitForSlot_fst, List.filter_append]
    by_cases hc : maxRequests ≤
        (s.filter (fun ts => ts > now - windowMs)).length
    · -- at the limit: the call waited until oldest + windowMs ≤ t
      have hlen : (s.filter (fun ts => ts > now - windowMs)).length =
          maxRequests := le_antisymm hcur hc
      rcases hs : s.filter (fun ts => ts > now - windowMs) with _ | ⟨a, tail⟩
      · rw [hs] at hlen; simp at hlen; omega
      · have hhead : (s.filter (fun ts => ts > now - windowMs)).head? =
            some a := by rw [hs]; rfl
        have hret := waitForSlot_snd_high s now maxRequests windowMs a hc hhead
        rw [hret] at ht
        have hafalse : ¬ (a > t - windowMs) := by omega
        rw [List.filter_cons]
        rw [if_neg (by simpa using hafalse), List.length_append]
        have h1 : (tail.filter (fun ts => ts > t - windowMs)).length ≤
            tail.length := List.length_filter_le _ _
        have h2 : (List.filter (fun ts => ts > t - windowMs) [now]).length ≤
            1 := by
          have := List.length_filter_le (fun ts => decide (ts > t - windowMs))
            [now]
          simpa using this
        have h3 : tail.length + 1 = maxRequests := by
          rw [hs] at hlen; simpa using hlen
        calc (tail.filter (fun ts => ts > t - windowMs)).length +
              (List.filter (fun ts => ts > t - windowMs) [now]).length
            ≤ tail.length + 1 := by omega
          _ = maxRequests := h3
    · -- below the limit
      push_neg at hc
      have h1 : ((s.filter (fun ts => ts > now - windowMs)).filter
          (fun ts => ts > t - windowMs)).length ≤
          (s.filter (fun ts => ts > now - windowMs)).length :=
        List.length_filter_le _ _
      have h2 : (List.filter (fun ts => ts > t - windowMs) [now]).length ≤
          1 := by
        have := List.length_filter_le (fun ts => decide (ts > t - windowMs))
          [now]
        simpa using this
      rw [List.length_append]
      omega
  · rw [waitForSlot_fst, List.length_append]
    simp only [List.length_singleton]
    omega

/-- Helper: along any sequential run, the recorded list keeps at most
`maxRequests + 1` entries. -/
theorem rlRun_length (maxRequests : Nat) (windowMs : Int)
    (hmax : 1 ≤ maxRequests) :
    ∀ (deltas : List Nat) (s : List Int) (tcur : Int),
      (∀ t, tcur ≤ t →
        (s.filter (fun ts => ts > t - windowMs)).length ≤ maxRequests) →
      s.length ≤ maxRequests + 1 →
      (deltas.foldl (rlStep maxRequests windowMs) (s, tcur)).1.length ≤
        maxRequests + 1 := by
  intro deltas
  induction deltas with
  | nil => intro s tcur _ hlen; exact hlen
  | cons d ds ih =>
    intro s tcur hinv hlen
    have hnow : tcur ≤ tcur + (d : Int) := by omega
    have hcur := hinv (tcur + d) hnow
    obtain ⟨hstep1, hstep2⟩ :=
      waitForSlot_inv maxRequests windowMs hmax s (tcur + d) hcur
    simp only [List.foldl_cons]
    exact ih _ _ (fun t ht => hstep1 t ht) hstep2

/-- C7 counterexample: the claim as stated is false.  Three sequential
calls at time 0 with `maxRequests = 2` and the default 60 s window leave
three admitted requests whose recorded timestamps all lie inside one
60 s window. -/
theorem claim7_rate_limit_counterexample :
    2 < countInWindow (rlRun 60000 2 0 [0, 0, 0]).1 0 60000 := by decide

/-- C7 (amended): at most `maxRequests + 1` recorded timestamps (not
`maxRequests`: the delayed call records its arrival time, which lies in the
same window as the `maxRequests` previous ones) can lie within any single
windowMs-long window after any sequence of sequential `waitForSlot` calls
with `maxRequests ≥ 1`; and when the limit is reached, `waitForSlot`
delays until the oldest recorded request falls outside the window before
admitting the next request. -/
theorem claim7_rate_limit_amended (windowMs : Int) (maxRequests : Nat)
    (t0 : Int) (deltas : List Nat) (w : Int) (hmax : 1 ≤ maxRequests) :
    countInWindow (rlRun windowMs maxRequests t0 deltas).1 w windowMs ≤
      maxRequests + 1 ∧
    (∀ (s : List Int) (now oldest : Int),
      maxRequests ≤ (s.filter (fun ts => ts > now - windowMs)).length →
      (s.filter (fun ts => ts > now - windowMs)).head? = some oldest →
      (waitForSlot s now maxRequests windowMs).2 = oldest + windowMs) := by
  constructor
  · have hlen : (rlRun windowMs maxRequests t0 deltas).1.length ≤
        maxRequests + 1 := by
      refine rlRun_length maxRequests windowMs hmax deltas [] t0 ?_ ?_
      · intro t _; simp
      · simp
    calc countInWindow (rlRun windowMs maxRequests t0 deltas).1 w windowMs
        ≤ (rlRun windowMs maxRequests t0 deltas).1.length :=
          List.length_filter_le _ _
      _ ≤ maxRequests + 1 := hlen
  · intro s now oldest hc hhead
    exact waitForSlot_snd_high s now maxRequests windowMs oldest hc hhead

/-- Witness for C7's amended theorem at concrete inputs. -/
theorem claim7_rate_limit_amended_witness :
    countInWindow (rlRun 60000 1 0 [0, 0]).1 0 60000 ≤ 2 ∧
    (waitForSlot [0] 0 1 60000).2 = 0 + 60000 := by
  obtain ⟨h1, h2⟩ := claim7_rate_limit_amended 60000 1 0 [0, 0] 0 (by decide)
  exact ⟨h1, h2 [0] 0 0 (by decide) (by decide)⟩

/-- C9: the Helius proxy handler is a stateless forwarder, total over
request methods: 500 when the server-side API key is missing; 405 for any
method other than POST or GET; a POST body's method and params are
forwarded upstream as a JSON-RPC 2.0 request, with 400 and the upstream
error message when the upstream reply carries an `error` field, 200 with
the upstream JSON otherwise, and 500 with the error message when the
upstream call throws. -/
theorem claim9_proxy (postUp : String → RpcOut → Except String UpReply)
    (getUp : List (String × String) → Except String String)
    (req : ProxyRequest) :
    heliusHandler none postUp getUp req =
      ⟨500, some "Helius API key not configured", none⟩ ∧
    (∀ k, req.method ≠ "POST" → req.method ≠ "GET" →
      heliusHandler (some k) postUp getUp req =
        ⟨405, some "Method not allowed", none⟩) ∧
    (∀ k data, req.method = "POST" →
      postUp (if req.body.endpoint = "das" then "das" else "rpc")
          ⟨"2.0", req.body.id, req.body.method, req.body.params⟩ = .ok data →
      (data.error = none →
        heliusHandler (some k) postUp getUp req = ⟨200, none, some data⟩) ∧
      (∀ m, data.error = some m →
        heliusHandler (some k) postUp getUp req =
          ⟨400, some (if m = "" then "Helius API error" else m), none⟩)) ∧
    (∀ k e, req.method = "POST" →
      postUp (if req.body.endpoint = "das" then "das" else "rpc")
          ⟨"2.0", req.body.id, req.body.method, req.body.params⟩ = .error e →
      heliusHandler (some k) postUp getUp req = ⟨500, some e, none⟩) ∧
    (∀ k payload, req.method = "GET" → getUp req.query = .ok payload →
      heliusHandler (some k) postUp getUp req =
        ⟨200, none, some ⟨none, payload⟩⟩) := by
  refine ⟨rfl, ?_, ?_, ?_, ?_⟩
  · intro k h1 h2
    simp only [heliusHandler, if_neg h1, if_neg h2]
  · intro k data hpost hup
    constructor
    · intro herr
      simp [heliusHandler, hpost, hup, herr]
    · intro m herr
      simp [heliusHandler, hpost, hup, herr]
  · intro k e hpost hup
    simp [heliusHandler, hpost, hup]
  · intro k payload hget hok
    simp [heliusHandler, hget, hok]

/-- Witness for C9 at concrete inputs: a PUT gets 405, a successful POST
forward gets 200 with the upstream JSON. -/
theorem claim9_proxy_witness :
    heliusHandler (some "key") (fun _ _ => .ok ⟨none, "r"⟩) (fun _ => .ok "g")
      ⟨"PUT", ⟨"getBalance", "p", 1, "rpc"⟩, []⟩ =
      ⟨405, some "Method not allowed", none⟩ ∧
    heliusHandler (some "key") (fun _ _ => .ok ⟨none, "r"⟩) (fun _ => .ok "g")
      ⟨"POST", ⟨"getBalance", "p", 1, "rpc"⟩, []⟩ = ⟨200, none, some ⟨none, "r"⟩⟩ := by
  constructor
  · exact (claim9_proxy (fun _ _ => .ok ⟨none, "r"⟩) (fun _ => .ok "g")
      ⟨"PUT", ⟨"getBalance", "p", 1, "rpc"⟩, []⟩).2.1 "key"
      (by decide) (by decide)
  · exact ((claim9_proxy (fun _ _ => .ok ⟨none, "r"⟩) (fun _ => .ok "g")
      ⟨"POST", ⟨"getBalance", "p", 1, "rpc"⟩, []⟩).2.2.1 "key" ⟨none, "r"⟩
      rfl rfl).1 rfl

/-- Helper: a signature page that honors the requested limit yields at
most `limit` transactions. -/
theorem getRecentTransactions_length_le (sigResp : Except String (List String))
    (txOf : String → Option Transaction) (limit : Nat)
    (hsig : ∀ sigs, sigResp = .ok sigs → sigs.length ≤ limit) :
    (getRecentTransactions sigResp txOf limit).transactions.length ≤ limit := by
  rcases sigResp with e | sigs
  · simp [getRecentTransactions]
  · by_cases hempty : sigs.isEmpty
    · simp [getRecentTransactions, hempty]
    · simp only [getRecentTransactions, hempty, Bool.false_eq_true,
        if_false]
      calc (sigs.filterMap txOf).length ≤ sigs.length :=
          List.length_filterMap_le _ _
        _ ≤ limit := hsig sigs rfl

/-- Helper: invariants of the `getAllTransactions` loop under a
limit-honoring signature service. -/
theorem getAllTransactionsGo_spec
    (pages : Nat → Nat → Except String (List String))
    (txOf : String → Option Transaction) (maxTransactions : Nat)
    (honor : ∀ i l sigs, pages i l = .ok sigs → sigs.length ≤ l) :
    ∀ (n i : Nat) (acc : List Transaction) (totalFetched : Nat)
      (hasMore : Bool),
      maxTransactions - totalFetched ≤ n →
      totalFetched = acc.length → acc.length ≤ maxTransactions →
      (getAllTransactionsGo pages txOf maxTransactions i acc totalFetched
          hasMore).totalFetched =
        (getAllTransactionsGo pages txOf maxTransactions i acc totalFetched
          hasMore).transactions.length ∧
      (getAllTransactionsGo pages txOf maxTransactions i acc totalFetched
          hasMore).transactions.length ≤ maxTransactions ∧
      ∀ l ∈ (getAllTransactionsGo pages txOf maxTransactions i acc
          totalFetched hasMore).requestedLimits, l ≤ TX_LIMIT := by
  intro n
  induction n with
  | zero =>
    intro i acc tf hm hn htf hacc
    rw [getAllTransactionsGo]
    rw [dif_neg (by omega)]
    exact ⟨htf, hacc, by simp⟩
  | succ n ih =>
    intro i acc tf hm hn htf hacc
    rw [getAllTransactionsGo]
    by_cases hcond : hm = true ∧ tf < maxTransactions
    · rw [dif_pos hcond]
      by_cases hempty : (getRecentTransactions
          (pages i (min TX_LIMIT (maxTransactions - tf))) txOf
          (min TX_LIMIT (maxTransactions - tf))).transactions.isEmpty
      · rw [dif_pos hempty]
        refine ⟨htf, hacc, ?_⟩
        intro l hl
        simp only [List.mem_singleton] at hl
        subst hl
        exact min_le_left _ _
      · rw [dif_neg hempty]
        have hbound : (getRecentTransactions
            (pages i (min TX_LIMIT (maxTransactions - tf))) txOf
            (min TX_LIMIT (maxTransactions - tf))).transactions.length ≤
            min TX_LIMIT (maxTransactions - tf) :=
          getRecentTransactions_length_le _ _ _
            (fun sigs h => honor i _ sigs h)
        have hpos : 0 < (getRecentTransactions
            (pages i (min TX_LIMIT (maxTransactions - tf))) txOf
            (min TX_LIMIT (maxTransactions - tf))).transactions.length := by
          refine List.length_pos.mpr ?_
          simpa [List.isEmpty_iff] using hempty
        have hmin : min TX_LIMIT (maxTransactions - tf) ≤
            maxTransactions - tf := min_le_right _ _
        obtain ⟨c1, c2, c3⟩ := ih (i + 1)
          (acc ++ (getRecentTransactions
            (pages i (min TX_LIMIT (maxTransactions - tf))) txOf
            (min TX_LIMIT (maxTransactions - tf))).transactions)
          (tf + (getRecentTransactions
            (pages i (min TX_LIMIT (maxTransactions - tf))) txOf
            (min TX_LIMIT (maxTransactions - tf))).transactions.length)
          ((getRecentTransactions
            (pages i (min TX_LIMIT (maxTransactions - tf))) txOf
            (min TX_LIMIT (maxTransactions - tf))).hasMore &&
            (getRecentTransactions
            (pages i (min TX_LIMIT (maxTransactions - tf))) txOf
            (min TX_LIMIT (maxTransactions - tf))).lastSignature.isSome)
          (by omega) (by simp [htf]) (by simp; omega)
        exact ⟨c1, c2, fun l hl => by
          rcases List.mem_cons.mp hl with hl1 | hl2
          · subst hl1; exact min_le_left _ _
          · exact c3 l hl2⟩
    · rw [dif_neg hcond]
      exact ⟨htf, hacc, by simp⟩

/-- C8: paginated fetch-all.  Under a signature service that honors the
requested per-page limit, `getAllTransactions` requests every page with a
limit of at most TX_LIMIT = 20, returns at most `maxTransactions`
transactions with `totalFetched` equal to the length of the returned list,
and stops when the loop flag is false (previous page reported `hasMore`
false or no `lastSignature`), when `maxTransactions` is reached, or when a
page yields no transactions. -/
theorem claim8_pagination (pages : Nat → Nat → Except String (List String))
    (txOf : String → Option Transaction) (maxTransactions : Nat)
    (honor : ∀ i l sigs, pages i l = .ok sigs → sigs.length ≤ l) :
    ((getAllTransactions pages txOf maxTransactions).totalFetched =
      (getAllTransactions pages txOf maxTransactions).transactions.length ∧
    (getAllTransactions pages txOf maxTransactions).transactions.length ≤
      maxTransactions ∧
    ∀ l ∈ (getAllTransactions pages txOf maxTransactions).requestedLimits,
      l ≤ TX_LIMIT) ∧
    (∀ i acc tf, getAllTransactionsGo pages txOf maxTransactions i acc tf
      false = ⟨acc, tf, []⟩) ∧
    (∀ i acc tf hm, maxTransactions ≤ tf →
      getAllTransactionsGo pages txOf maxTransactions i acc tf hm =
        ⟨acc, tf, []⟩) ∧
    (∀ i acc tf, tf < maxTransactions →
      (getRecentTransactions
        (pages i (min TX_LIMIT (maxTransactions - tf))) txOf
        (min TX_LIMIT (maxTransactions - tf))).transactions = [] →
      getAllTransactionsGo pages txOf maxTransactions i acc tf true =
        ⟨acc, tf, [min TX_LIMIT (maxTransactions - tf)]⟩) := by
  refine ⟨?_, ?_, ?_, ?_⟩
  · exact getAllTransactionsGo_spec pages txOf maxTransactions honor
      maxTransactions 0 [] 0 true (by omega) rfl (by simp)
  · intro i acc tf
    rw [getAllTransactionsGo]
    rw [dif_neg (by simp)]
  · intro i acc tf hm hge
    rw [getAllTransactionsGo]
    rw [dif_neg (by omega)]
  · intro i acc tf hlt hpage
    rw [getAllTransactionsGo]
    rw [dif_pos ⟨rfl, hlt⟩]
    rw [dif_pos (by simp [hpage])]

/-- Witness for C8 at concrete inputs. -/
theorem claim8_pagination_witness :
    (getAllTransactions (fun _ _ => .ok []) (fun _ => none) 5).totalFetched =
      (getAllTransactions (fun _ _ => .ok [])
        (fun _ => none) 5).transactions.length ∧
    (getAllTransactions (fun _ _ => .ok [])
      (fun _ => none) 5).transactions.length ≤ 5 := by
  obtain ⟨⟨h1, h2, -⟩, -⟩ := claim8_pagination (fun _ _ => .ok [])
    (fun _ => none) 5 (fun i l sigs h => by
      obtain rfl : sigs = [] := (Except.ok.inj h).symm
      simp)
  exact ⟨h1, h2⟩

/-- C10: `fetchWalletData` rejects with "Invalid Solana address" exactly
when the input fails the base58 regex, performing no network request in that case; for a matching address it resolves with a `WalletData` whose
address equals the input, any failed sub-fetch degraded to balance 0,
empty token list, empty transaction list, or usdValue 0. -/
theorem claim10_fetch_wallet (address : String) :
    (validSolanaAddress address = false →
      ∀ r1 r2 r3 r4 r1' r2' r3' r4',
        fetchWalletData address r1 r2 r3 r4 = .error "Invalid Solana address" ∧
        fetchWalletData address r1 r2 r3 r4 =
          fetchWalletData address r1' r2' r3' r4') ∧
    (validSolanaAddress address = true →
      ∀ r1 r2 r3 r4, ∃ w,
        fetchWalletData address r1 r2 r3 r4 = .ok w ∧
        w.address = address ∧
        (∀ e, r1 = .error e → w.balance = 0) ∧
        (∀ e, r2 = .error e → w.tokens = []) ∧
        (∀ e, r3 = .error e → w.transactions = []) ∧
        (∀ e, r1 = .error e → w.usdValue = 0) ∧
        (∀ e, r4 = .error e → w.usdValue = 0)) := by
  constructor
  · intro hbad r1 r2 r3 r4 r1' r2' r3' r4'
    constructor
    · simp [fetchWalletData, hbad]
    · simp [fetchWalletData, hbad]
  · intro hok r1 r2 r3 r4
    refine ⟨{ address := address
              balance := fulfilledOr r1 0
              usdValue := settledUsdValue r1 r4
              tokens := fulfilledOr r2 []
              transactions := settledTransactions r3 },
      by simp [fetchWalletData, hok], rfl, ?_, ?_, ?_, ?_, ?_⟩
    · intro e he; subst he; rfl
    · intro e he; subst he; rfl
    · intro e he; subst he; rfl
    · intro e he; subst he
      cases r4 <;> rfl
    · intro e he; subst he
      cases r1 <;> rfl

/-- Witness for C10: an invalid address is rejected identically for two
different oracle assignments; a valid address yields a `WalletData` with
the degraded defaults. -/
theorem claim10_fetch_wallet_witness :
    (fetchWalletData "abc" (.ok 5) (.ok []) (.ok ⟨[], false, none⟩) (.ok 2) =
      .error "Invalid Solana address") ∧
    ∃ w, fetchWalletData "AAAAAAAAAAAAAAAAAAAAAAAAAAAAAAAA" (.error "x")
        (.ok []) (.ok ⟨[], false, none⟩) (.ok 2) = .ok w ∧
      w.address = "AAAAAAAAAAAAAAAAAAAAAAAAAAAAAAAA" ∧ w.balance = 0 := by
  constructor
  · exact ((claim10_fetch_wallet "abc").1 (by decide)
      (.ok 5) (.ok []) (.ok ⟨[], false, none⟩) (.ok 2)
      (.ok 5) (.ok []) (.ok ⟨[], false, none⟩) (.ok 2)).1
  · obtain ⟨w, hw, haddr, hbal, -⟩ :=
      (claim10_fetch_wallet "AAAAAAAAAAAAAAAAAAAAAAAAAAAAAAAA").2 (by decide)
        (.error "x") (.ok []) (.ok ⟨[], false, none⟩) (.ok 2)
    exact ⟨w, hw, haddr, hbal "x" rfl⟩

end SolWatcher
